import Mathlib

/-!
Shallow embedding of the asset-lifecycle core of the Military-Asset repository
(Express + Prisma controllers) and proofs about its claims.

Modelling conventions:
* Prisma rows become Lean structures; the database becomes a `DB` structure of
  row lists.  `cuid()` string ids become `Nat` ids drawn from `DB.nextId`.
* `DateTime` values become `Nat` timestamps; mutating operations that stamp the
  current time take a `now : Nat` parameter.
* Fields carrying no business logic in any claim (`value`, `acquisitionDate`,
  `warrantyExpiry`, `createdAt`, `updatedAt`, `isActive`, passwords, emails)
  are elided.
* Optional JS body fields are `Option` values; `none` covers both an absent
  field and a JS-falsy empty string (the controllers test them with `if (x)`).
* Every controller wraps its writes in a single `prisma.$transaction`, so each
  operation is one pure function `DB -> Except ApiError Nat × DB`; all error
  paths return before any write, so they pair the error with the unchanged
  database.
* The controllers signal business-rule violations as HTTP 400 responses with a
  message; in the error taxonomy of the specification these are the
  `ConflictError` kind, HTTP 403 responses are `ForbiddenError`, and HTTP 404
  responses are `NotFoundError`.  `ApiError` names the three kinds.
-/

namespace MilitaryAsset

/-- `AssetStatus` enum of the Prisma schema. -/
inductive AssetStatus
  | AVAILABLE
  | ASSIGNED
  | IN_TRANSIT
  | MAINTENANCE
  | EXPENDED
  | DECOMMISSIONED
deriving DecidableEq

/-- `TransferStatus` enum of the Prisma schema. -/
inductive TransferStatus
  | PENDING
  | APPROVED
  | IN_TRANSIT
  | COMPLETED
  | CANCELLED
deriving DecidableEq

/-- `Role` enum of the Prisma schema. -/
inductive Role
  | ADMIN
  | BASE_COMMANDER
  | LOGISTICS_OFFICER
deriving DecidableEq

/-- A row of the `bases` table. -/
structure Base where
  id : Nat
  name : String
  code : String
  location : String
deriving DecidableEq

/-- A row of the `users` table (the fields the controllers read). -/
structure User where
  id : Nat
  username : String
  role : Role
  baseId : Option Nat
deriving DecidableEq

/-- A row of the `assets` table. -/
structure Asset where
  id : Nat
  serialNumber : String
  name : String
  description : Option String
  equipmentType : String
  status : AssetStatus
  baseId : Nat
deriving DecidableEq

/-- A row of the `assignments` table. -/
structure Assignment where
  id : Nat
  assetId : Nat
  assignedToId : Nat
  baseId : Nat
  purpose : String
  notes : Option String
  returnedAt : Option Nat
  createdById : Nat
deriving DecidableEq

/-- A row of the `transfers` table. -/
structure Transfer where
  id : Nat
  transferCode : String
  fromBaseId : Nat
  toBaseId : Nat
  status : TransferStatus
  reason : Option String
  notes : Option String
  createdById : Nat
  approvedById : Option Nat
  approvedAt : Option Nat
  completedAt : Option Nat
deriving DecidableEq

/-- A row of the `transfer_items` table. -/
structure TransferItem where
  transferId : Nat
  assetId : Nat
  quantity : Nat
  notes : Option String
deriving DecidableEq

/-- A row of the `expenditures` table. -/
structure Expenditure where
  id : Nat
  assetId : Nat
  baseId : Nat
  quantity : Nat
  reason : String
  description : Option String
  expendedAt : Nat
  createdById : Nat
deriving DecidableEq

/-- The relational store. -/
structure DB where
  bases : List Base
  users : List User
  assets : List Asset
  assignments : List Assignment
  transfers : List Transfer
  transferItems : List TransferItem
  expenditures : List Expenditure
  nextId : Nat
deriving DecidableEq

/-- The error kinds of the specification, tagged with the response message.
`conflict` embeds the HTTP 400 business-rule responses of the controllers,
`forbidden` the HTTP 403 responses, `notFound` the HTTP 404 responses, and
`internal` the generic HTTP 500 responses a controller catch block returns
when the store throws (the unexpected-store-failure kind of the spec). -/
inductive ApiError
  | notFound (msg : String)
  | conflict (msg : String)
  | forbidden (msg : String)
  | internal (msg : String)
deriving DecidableEq

/-- `prisma.asset.findUnique({ where: { id } })`. -/
def DB.findAsset (db : DB) (x : Nat) : Option Asset :=
  db.assets.find? fun a => decide (a.id = x)

/-- `prisma.base.findUnique({ where: { id } })`. -/
def DB.findBase (db : DB) (x : Nat) : Option Base :=
  db.bases.find? fun b => decide (b.id = x)

/-- `prisma.user.findUnique({ where: { id } })`. -/
def DB.findUser (db : DB) (x : Nat) : Option User :=
  db.users.find? fun u => decide (u.id = x)

/-- `prisma.transfer.findUnique({ where: { id } })`. -/
def DB.findTransfer (db : DB) (x : Nat) : Option Transfer :=
  db.transfers.find? fun t => decide (t.id = x)

/-- The open assignments of an asset: the `assignments` include with
`where: { returnedAt: null }` used by several controllers. -/
def DB.openAssignmentsOf (db : DB) (assetId : Nat) : List Assignment :=
  db.assignments.filter fun a => decide (a.assetId = assetId ∧ a.returnedAt = none)

/-- All transfer items referencing an asset (`transferItems: true` include). -/
def DB.itemsForAsset (db : DB) (assetId : Nat) : List TransferItem :=
  db.transferItems.filter fun it => decide (it.assetId = assetId)

/-- All expenditures referencing an asset (`expenditures: true` include). -/
def DB.expendituresForAsset (db : DB) (assetId : Nat) : List Expenditure :=
  db.expenditures.filter fun e => decide (e.assetId = assetId)

/-- All assignments ever recorded for an asset, open or closed. -/
def DB.assignmentsForAsset (db : DB) (assetId : Nat) : List Assignment :=
  db.assignments.filter fun a => decide (a.assetId = assetId)

/-- Whether any row still references the asset through one of the required
relations of the Prisma schema (`Assignment.asset`, `TransferItem.asset`,
`Expenditure.asset`).  Prisma 5 (the server pins `prisma@^5.7.1`) defaults a
required relation to ON DELETE RESTRICT on PostgreSQL, so
`prisma.asset.delete` throws P2003 whenever this holds — even when the only
referencing rows are returned assignments. -/
def DB.assetReferenced (db : DB) (assetId : Nat) : Bool :=
  decide (db.assignmentsForAsset assetId ≠ []) ||
    decide (db.itemsForAsset assetId ≠ []) ||
    decide (db.expendituresForAsset assetId ≠ [])

/-- The items of a transfer (the `transferItems` relation of a transfer row). -/
def DB.itemsOfTransfer (db : DB) (transferId : Nat) : List TransferItem :=
  db.transferItems.filter fun it => decide (it.transferId = transferId)

/-- `tx.asset.update({ where: { id }, data: { status } })` as a row function. -/
def setStatusRow (x : Nat) (st : AssetStatus) (a : Asset) : Asset :=
  if a.id = x then { a with status := st } else a

/-- Target-base computation shared by `createAsset`, `createAssignment` and
`createExpenditure`: a BASE_COMMANDER with a (truthy) home base silently
overrides the base id supplied in the request body. -/
def cmdTargetBase (user : User) (bodyBaseId : Nat) : Nat :=
  match user.role, user.baseId with
  | Role.BASE_COMMANDER, some b => b
  | _, _ => bodyBaseId

/-- Role-based `whereClause` scope on an asset row: a BASE_COMMANDER with a
home base only sees assets of that base. -/
def assetScope (user : User) (x : Nat) (a : Asset) : Bool :=
  decide (a.id = x) &&
    (match user.role, user.baseId with
     | Role.BASE_COMMANDER, some b => decide (a.baseId = b)
     | _, _ => true)

/-- Role-based `whereClause` scope on an assignment row. -/
def assignmentScope (user : User) (x : Nat) (a : Assignment) : Bool :=
  decide (a.id = x) &&
    (match user.role, user.baseId with
     | Role.BASE_COMMANDER, some b => decide (a.baseId = b)
     | _, _ => true)

/-! ## Asset controller (assetController) -/

/-- Request body of `POST /api/assets`. -/
structure AssetCreateReq where
  serialNumber : String
  name : String
  description : Option String
  equipmentType : String
  baseId : Nat
deriving DecidableEq

/-- `createAsset` of the asset controller. -/
def createAsset (db : DB) (user : User) (req : AssetCreateReq) :
    Except ApiError Nat × DB :=
  let targetBaseId := cmdTargetBase user req.baseId
  match db.findBase targetBaseId with
  | none => (Except.error (ApiError.notFound "Base not found"), db)
  | some _ =>
    match db.assets.find? (fun a => decide (a.serialNumber = req.serialNumber)) with
    | some _ =>
      (Except.error (ApiError.conflict "Asset with this serial number already exists"), db)
    | none =>
      let asset : Asset :=
        { id := db.nextId, serialNumber := req.serialNumber, name := req.name,
          description := req.description, equipmentType := req.equipmentType,
          status := AssetStatus.AVAILABLE,
          baseId := targetBaseId }
      (Except.ok asset.id,
        { db with assets := db.assets ++ [asset], nextId := db.nextId + 1 })

/-- Request body of `PUT /api/assets/:id`; `none` means the field is absent
from the body (the controller tests each with `!== undefined`). -/
structure AssetUpdateReq where
  serialNumber : Option String
  name : Option String
  description : Option (Option String)
  equipmentType : Option String
  status : Option AssetStatus
deriving DecidableEq

/-- The `updateData` object built by `updateAsset`: each supplied field
overwrites the row, the status unconditionally so. -/
def applyAssetUpdate (req : AssetUpdateReq) (a : Asset) : Asset :=
  { a with
    serialNumber := req.serialNumber.getD a.serialNumber,
    name := req.name.getD a.name,
    description := req.description.getD a.description,
    equipmentType := req.equipmentType.getD a.equipmentType,
    status := req.status.getD a.status }

/-- `updateAsset` of the asset controller.  Note that it never inspects the
current status: a supplied `status` is written verbatim. -/
def updateAsset (db : DB) (user : User) (x : Nat) (req : AssetUpdateReq) :
    Except ApiError Nat × DB :=
  match db.assets.find? (assetScope user x) with
  | none => (Except.error (ApiError.notFound "Asset not found"), db)
  | some existingAsset =>
    let dup : Bool :=
      match req.serialNumber with
      | some s =>
        if s = existingAsset.serialNumber then false
        else (db.assets.find? (fun a => decide (a.serialNumber = s))).isSome
      | none => false
    if dup then
      (Except.error (ApiError.conflict "Asset with this serial number already exists"), db)
    else
      (Except.ok x,
        { db with assets := db.assets.map fun a =>
            if a.id = x then applyAssetUpdate req a else a })

/-- `deleteAsset` of the asset controller.  The controller's own blocking
`assignments` include is filtered to `returnedAt: null`, so only OPEN
assignments trip its explicit 400 checks; transfer items and expenditures
trip them regardless of age.  When the checks all pass, `prisma.asset.delete`
runs against the store, whose ON DELETE RESTRICT on the required relations
(see `DB.assetReferenced`) aborts the delete with P2003 if any referencing
row remains — in particular a RETURNED assignment; the controller catch block
then answers with the generic 500 error and the row persists. -/
def deleteAsset (db : DB) (user : User) (x : Nat) : Except ApiError Nat × DB :=
  match db.findAsset x with
  | none => (Except.error (ApiError.notFound "Asset not found"), db)
  | some _ =>
    if (db.openAssignmentsOf x).length > 0 then
      (Except.error (ApiError.conflict "Cannot delete asset with active assignments"), db)
    else if (db.itemsForAsset x).length > 0 then
      (Except.error (ApiError.conflict "Cannot delete asset with transfer history"), db)
    else if (db.expendituresForAsset x).length > 0 then
      (Except.error (ApiError.conflict "Cannot delete asset with expenditure records"), db)
    else if db.assetReferenced x then
      (Except.error (ApiError.internal "Server error deleting asset"), db)
    else
      (Except.ok x, { db with assets := db.assets.filter fun a => decide (a.id ≠ x) })

/-! ## Assignment controller (assignmentController) -/

/-- Request body of `POST /api/assignments`. -/
structure AssignmentReq where
  assetId : Nat
  assignedToId : Nat
  baseId : Nat
  purpose : String
  notes : Option String
deriving DecidableEq

/-- `createAssignment` of the assignment controller. -/
def createAssignment (db : DB) (user : User) (req : AssignmentReq) :
    Except ApiError Nat × DB :=
  let targetBaseId := cmdTargetBase user req.baseId
  match db.findAsset req.assetId with
  | none => (Except.error (ApiError.notFound "Asset not found"), db)
  | some asset =>
    if asset.baseId ≠ targetBaseId then
      (Except.error (ApiError.conflict "Asset is not at the specified base"), db)
    else if asset.status ≠ AssetStatus.AVAILABLE then
      (Except.error (ApiError.conflict "Asset is not available for assignment"), db)
    else if (db.openAssignmentsOf req.assetId).length > 0 then
      (Except.error (ApiError.conflict "Asset is already assigned to someone else"), db)
    else
      match db.findUser req.assignedToId with
      | none => (Except.error (ApiError.notFound "User to assign asset to not found"), db)
      | some assignedUser =>
        if assignedUser.baseId ≠ some targetBaseId then
          (Except.error (ApiError.conflict "User is not at the same base as the asset"), db)
        else
          let assignment : Assignment :=
            { id := db.nextId, assetId := req.assetId, assignedToId := req.assignedToId,
              baseId := targetBaseId, purpose := req.purpose, notes := req.notes,
              returnedAt := none, createdById := user.id }
          (Except.ok db.nextId,
            { db with
              assignments := db.assignments ++ [assignment],
              assets := db.assets.map (setStatusRow req.assetId AssetStatus.ASSIGNED),
              nextId := db.nextId + 1 })

/-- Request body of `PUT /api/assignments/:id/return`. -/
structure ReturnReq where
  notes : Option String
  condition : Option String
deriving DecidableEq

/-- Next asset status as a function of the supplied condition tag
(`returnAssignment`, the `newStatus` computation). -/
def returnConditionStatus (condition : Option String) : AssetStatus :=
  if condition = some "DAMAGED" ∨ condition = some "NEEDS_MAINTENANCE" then
    AssetStatus.MAINTENANCE
  else if condition = some "DECOMMISSIONED" then
    AssetStatus.DECOMMISSIONED
  else
    AssetStatus.AVAILABLE

/-- New notes of a returned assignment (`returnAssignment`). -/
def returnNotesUpd (a : Assignment) (reqNotes : Option String) : Option String :=
  match reqNotes with
  | some n => some (((a.notes.getD "") ++ "\nReturn notes: " ++ n).trim)
  | none => a.notes

/-- `returnAssignment` of the assignment controller. -/
def returnAssignment (db : DB) (user : User) (x : Nat) (req : ReturnReq) (now : Nat) :
    Except ApiError Nat × DB :=
  match db.assignments.find? (assignmentScope user x) with
  | none => (Except.error (ApiError.notFound "Assignment not found"), db)
  | some assignment =>
    if assignment.returnedAt.isSome then
      (Except.error (ApiError.conflict "Asset has already been returned"), db)
    else
      (Except.ok x,
        { db with
          assignments := db.assignments.map fun a =>
            if a.id = x then
              { a with returnedAt := some now, notes := returnNotesUpd assignment req.notes }
            else a,
          assets := db.assets.map
            (setStatusRow assignment.assetId (returnConditionStatus req.condition)) })

/-! ## Expenditure controller (expenditureController) -/

/-- Request body of `POST /api/expenditures`. -/
structure ExpenditureReq where
  assetId : Nat
  baseId : Nat
  quantity : Nat
  reason : String
  description : Option String
  expendedAt : Option Nat
deriving DecidableEq

/-- Auto-generated note of an assignment force-closed by an expenditure. -/
def expendAutoNotes (a : Assignment) : Option String :=
  some (((a.notes.getD "") ++ "\nAsset expended - automatic return").trim)

/-- The per-assignment loop of `createExpenditure`: force-closes every open
assignment of the snapshot, stamping `returnedAt` and the auto note. -/
def expendLoop (now : Nat) (openAs : List Assignment) (db : DB) : DB :=
  openAs.foldl
    (fun d assignment =>
      { d with assignments := d.assignments.map fun a =>
          if a.id = assignment.id then
            { a with returnedAt := some now, notes := expendAutoNotes assignment }
          else a })
    db

/-- `createExpenditure` of the expenditure controller. -/
def createExpenditure (db : DB) (user : User) (req : ExpenditureReq) (now : Nat) :
    Except ApiError Nat × DB :=
  let targetBaseId := cmdTargetBase user req.baseId
  match db.findAsset req.assetId with
  | none => (Except.error (ApiError.notFound "Asset not found"), db)
  | some asset =>
    if asset.baseId ≠ targetBaseId then
      (Except.error (ApiError.conflict "Asset is not at the specified base"), db)
    else if asset.status = AssetStatus.EXPENDED then
      (Except.error (ApiError.conflict "Asset has already been expended"), db)
    else
      let expenditure : Expenditure :=
        { id := db.nextId, assetId := req.assetId, baseId := targetBaseId,
          quantity := req.quantity, reason := req.reason, description := req.description,
          expendedAt := req.expendedAt.getD now, createdById := user.id }
      let db1 : DB :=
        { db with
          expenditures := db.expenditures ++ [expenditure],
          assets := db.assets.map (setStatusRow req.assetId AssetStatus.EXPENDED),
          nextId := db.nextId + 1 }
      (Except.ok expenditure.id, expendLoop now (db.openAssignmentsOf req.assetId) db1)

/-! ## Transfer controller (transferController) -/

/-- One element of the `assets` array of `POST /api/transfers`. -/
structure TransferAssetReq where
  assetId : Nat
  quantity : Option Nat
  notes : Option String
deriving DecidableEq

/-- Request body of `POST /api/transfers`. -/
structure TransferReq where
  fromBaseId : Nat
  toBaseId : Nat
  reason : Option String
  notes : Option String
  assets : List TransferAssetReq
deriving DecidableEq

/-- `assets.map(a => a.assetId)` of `createTransfer`. -/
def transferAssetIds (req : TransferReq) : List Nat :=
  req.assets.map TransferAssetReq.assetId

/-- The `availableAssets` query of `createTransfer`: assets whose id is in the
request, located at the source base, with status AVAILABLE. -/
def availableTransferAssets (db : DB) (req : TransferReq) : List Asset :=
  db.assets.filter fun a =>
    decide (a.id ∈ transferAssetIds req ∧ a.baseId = req.fromBaseId ∧
      a.status = AssetStatus.AVAILABLE)

/-- The pre-transaction validation phase of `createTransfer`.  It runs OUTSIDE
the Prisma transaction; `none` means validation passed. -/
def createTransferValidate (db : DB) (user : User) (req : TransferReq) :
    Option ApiError :=
  if req.fromBaseId = req.toBaseId then
    some (ApiError.conflict "Source and destination bases must be different")
  else if user.role = Role.BASE_COMMANDER ∧ user.baseId ≠ some req.fromBaseId then
    some (ApiError.forbidden "Base commanders can only transfer from their assigned base")
  else if (db.findBase req.fromBaseId).isNone ∨ (db.findBase req.toBaseId).isNone then
    some (ApiError.notFound "One or both bases not found")
  else if (availableTransferAssets db req).length ≠ (transferAssetIds req).length then
    some (ApiError.conflict "Some assets are not available for transfer")
  else
    none

/-- The per-asset loop of the `createTransfer` transaction: creates one
TransferItem per requested asset and unconditionally sets the asset
IN_TRANSIT.  It performs no re-validation. -/
def commitLoop (transferId : Nat) (reqAssets : List TransferAssetReq) (db : DB) : DB :=
  reqAssets.foldl
    (fun d a =>
      { d with
        transferItems := d.transferItems ++
          [{ transferId := transferId, assetId := a.assetId,
             quantity := a.quantity.getD 1, notes := a.notes }],
        assets := d.assets.map (setStatusRow a.assetId AssetStatus.IN_TRANSIT) })
    db

/-- The transaction phase of `createTransfer`: creates the PENDING transfer
row (`status` is the schema default PENDING) and runs the per-asset loop.
The `transferCode` generated inside the transaction is a parameter. -/
def createTransferCommit (db : DB) (user : User) (req : TransferReq) (code : String) :
    Nat × DB :=
  let transfer : Transfer :=
    { id := db.nextId, transferCode := code, fromBaseId := req.fromBaseId,
      toBaseId := req.toBaseId, status := TransferStatus.PENDING,
      reason := req.reason, notes := req.notes, createdById := user.id,
      approvedById := none, approvedAt := none, completedAt := none }
  (db.nextId,
    commitLoop db.nextId req.assets
      { db with transfers := db.transfers ++ [transfer], nextId := db.nextId + 1 })

/-- `createTransfer` of the transfer controller: validation followed by the
transaction. -/
def createTransfer (db : DB) (user : User) (req : TransferReq) (code : String) :
    Except ApiError Nat × DB :=
  match createTransferValidate db user req with
  | some e => (Except.error e, db)
  | none =>
    let r := createTransferCommit db user req code
    (Except.ok r.1, r.2)

/-- New notes of an approved transfer: `notes || transfer.notes`. -/
def approveNotesUpd (notes fallback : Option String) : Option String :=
  match notes with
  | some n => some n
  | none => fallback

/-- `approveTransfer` of the transfer controller. -/
def approveTransfer (db : DB) (user : User) (x : Nat) (notes : Option String)
    (now : Nat) : Except ApiError Nat × DB :=
  match db.findTransfer x with
  | none => (Except.error (ApiError.notFound "Transfer not found"), db)
  | some transfer =>
    if transfer.status ≠ TransferStatus.PENDING then
      (Except.error (ApiError.conflict "Transfer is not in pending status"), db)
    else if user.role = Role.BASE_COMMANDER ∧ user.baseId ≠ some transfer.toBaseId then
      (Except.error
        (ApiError.forbidden "Base commanders can only approve transfers to their base"), db)
    else
      let newNotes : Option String := approveNotesUpd notes transfer.notes
      (Except.ok x,
        { db with transfers := db.transfers.map fun t =>
            if t.id = x then
              { t with status := TransferStatus.APPROVED, approvedById := some user.id, approvedAt := some now, notes := newNotes }
            else t })

/-- The per-item loop of the `completeTransfer` transaction: moves every member
asset to the destination base and sets it AVAILABLE. -/
def completeLoop (toBaseId : Nat) (items : List TransferItem) (db : DB) : DB :=
  items.foldl
    (fun d it =>
      { d with assets := d.assets.map fun a =>
          if a.id = it.assetId then
            { a with baseId := toBaseId, status := AssetStatus.AVAILABLE }
          else a })
    db

/-- `completeTransfer` of the transfer controller. -/
def completeTransfer (db : DB) (user : User) (x : Nat) (now : Nat) :
    Except ApiError Nat × DB :=
  match db.findTransfer x with
  | none => (Except.error (ApiError.notFound "Transfer not found"), db)
  | some transfer =>
    if transfer.status ≠ TransferStatus.APPROVED then
      (Except.error (ApiError.conflict "Transfer must be approved before completion"), db)
    else if user.role = Role.BASE_COMMANDER ∧ user.baseId ≠ some transfer.toBaseId then
      (Except.error
        (ApiError.forbidden "Base commanders can only complete transfers to their base"), db)
    else
      (Except.ok x,
        completeLoop transfer.toBaseId (db.itemsOfTransfer x)
          { db with transfers := db.transfers.map fun t =>
              if t.id = x then
                { t with status := TransferStatus.COMPLETED, completedAt := some now }
              else t })

/-- The per-item loop of the `cancelTransfer` transaction: restores every
member asset to AVAILABLE; the base field is never touched. -/
def cancelLoop (items : List TransferItem) (db : DB) : DB :=
  items.foldl
    (fun d it =>
      { d with assets := d.assets.map (setStatusRow it.assetId AssetStatus.AVAILABLE) })
    db

/-- New notes of a cancelled transfer (`cancelTransfer`). -/
def cancelNotesUpd (t : Transfer) (reason : Option String) : Option String :=
  match reason with
  | some r => some (((t.notes.getD "") ++ "\nCancellation reason: " ++ r).trim)
  | none => t.notes

/-- `cancelTransfer` of the transfer controller. -/
def cancelTransfer (db : DB) (user : User) (x : Nat) (reason : Option String) :
    Except ApiError Nat × DB :=
  match db.findTransfer x with
  | none => (Except.error (ApiError.notFound "Transfer not found"), db)
  | some transfer =>
    if transfer.status ≠ TransferStatus.PENDING ∧
        transfer.status ≠ TransferStatus.APPROVED then
      (Except.error (ApiError.conflict "Transfer cannot be cancelled in current status"), db)
    else if user.role = Role.BASE_COMMANDER ∧ user.baseId ≠ some transfer.fromBaseId then
      (Except.error
        (ApiError.forbidden "Base commanders can only cancel transfers from their base"), db)
    else
      (Except.ok x,
        cancelLoop (db.itemsOfTransfer x)
          { db with transfers := db.transfers.map fun t =>
              if t.id = x then
                { t with status := TransferStatus.CANCELLED, notes := cancelNotesUpd transfer reason }
              else t })

/-! ## General lemmas about keyed row lists -/

section KeyedLists

variable {α : Type}

/-- Looking a row up by key commutes with a key-preserving row map. -/
theorem find?_key_map (key : α → Nat) (f : α → α) (hkey : ∀ a, key (f a) = key a)
    (l : List α) (x : Nat) :
    (l.map f).find? (fun a => decide (key a = x)) =
      (l.find? (fun a => decide (key a = x))).map f := by
  have hp : ((fun a => decide (key a = x)) ∘ f) = (fun a => decide (key a = x)) := by
    funext a
    simp [Function.comp, hkey]
  rw [List.find?_map, hp]

/-- In a list whose keys are distinct, `find?` by the key of a member returns
that member. -/
theorem find?_key_of_mem (key : α → Nat) {l : List α} (hnd : (l.map key).Nodup)
    {a : α} (ha : a ∈ l) :
    l.find? (fun b => decide (key b = key a)) = some a := by
  induction l with
  | nil => cases ha
  | cons x xs ih =>
    rw [List.map_cons, List.nodup_cons] at hnd
    rcases List.mem_cons.mp ha with h | h
    · subst h
      simp [List.find?]
    · have hne : key x ≠ key a := by
        intro he
        exact hnd.1 (he ▸ List.mem_map_of_mem key h)
      rw [List.find?_cons_of_neg _ (by simp [hne])]
      exact ih hnd.2 h

/-- `find?` skips a prefix containing no match. -/
theorem find?_append_none {p : α → Bool} {l₁ : List α} (l₂ : List α)
    (h : l₁.find? p = none) : (l₁ ++ l₂).find? p = l₂.find? p := by
  induction l₁ with
  | nil => rfl
  | cons x xs ih =>
    rw [List.find?] at h
    rw [List.cons_append, List.find?]
    cases hx : p x with
    | true => rw [hx] at h; simp at h
    | false => rw [hx] at h; exact ih h

/-- `find?` returns the match of the prefix when there is one. -/
theorem find?_append_some {p : α → Bool} {l₁ : List α} (l₂ : List α) {b : α}
    (h : l₁.find? p = some b) : (l₁ ++ l₂).find? p = some b := by
  induction l₁ with
  | nil => simp at h
  | cons x xs ih =>
    rw [List.find?] at h
    rw [List.cons_append, List.find?]
    cases hx : p x with
    | true => rw [hx] at h; simpa using h
    | false => rw [hx] at h; exact ih h

/-- A filter that keeps exactly one member of a duplicate-free list. -/
theorem filter_eq_singleton_of_unique {p : α → Bool} {l : List α} (hnd : l.Nodup)
    {a : α} (ha : a ∈ l) (hpa : p a = true) (huniq : ∀ x ∈ l, p x = true → x = a) :
    l.filter p = [a] := by
  induction l with
  | nil => cases ha
  | cons x xs ih =>
    rw [List.nodup_cons] at hnd
    rcases List.mem_cons.mp ha with h | h
    · subst h
      rw [List.filter_cons_of_pos hpa]
      have : xs.filter p = [] := by
        rw [List.filter_eq_nil_iff]
        intro y hy hpy
        exact hnd.1 ((huniq y (List.mem_cons_of_mem _ hy) hpy) ▸ hy)
      rw [this]
    · have hpx : p x = false := by
        cases hx : p x with
        | false => rfl
        | true => exact absurd (huniq x (List.mem_cons_self x xs) hx) (fun he => hnd.1 (he ▸ h))
      rw [List.filter_cons_of_neg (by simp [hpx])]
      exact ih hnd.2 h (fun y hy hpy => huniq y (List.mem_cons_of_mem _ hy) hpy)

/-- Pigeonhole for a keyed filter: if the filter keeps as many rows as there
are requested keys, every requested key is the key of some kept row. -/
theorem filter_covers (key : α → Nat) {l : List α} (hnd : (l.map key).Nodup)
    (p : α → Bool) (ids : List Nat)
    (hmem : ∀ a, p a = true → key a ∈ ids)
    (hlen : (l.filter p).length = ids.length) :
    ∀ x ∈ ids, ∃ a ∈ l, key a = x ∧ p a = true := by
  have hsub : List.Sublist (l.filter p) l := List.filter_sublist l
  have hndf : ((l.filter p).map key).Nodup := hnd.sublist (hsub.map key)
  have hsubset : (l.filter p).map key ⊆ ids := by
    intro y hy
    rcases List.mem_map.mp hy with ⟨a, haf, rfl⟩
    exact hmem a (List.of_mem_filter haf)
  have hperm : List.Perm ((l.filter p).map key) ids := by
    refine (hndf.subperm hsubset).perm_of_length_le ?_
    rw [List.length_map, hlen]
  intro x hx
  rcases List.mem_map.mp (hperm.mem_iff.mpr hx) with ⟨a, haf, rfl⟩
  exact ⟨a, List.mem_of_mem_filter haf, rfl, List.of_mem_filter haf⟩

/-- Two members of a list with duplicate-free keys and equal keys are equal. -/
theorem key_inj {l : List α} (key : α → Nat) (hnd : (l.map key).Nodup)
    {a b : α} (ha : a ∈ l) (hb : b ∈ l) (hk : key a = key b) : a = b := by
  have h1 := find?_key_of_mem key hnd ha
  have h2 := find?_key_of_mem key hnd hb
  rw [hk] at h1
  rw [h1] at h2
  exact Option.some_injective α h2

end KeyedLists

/-! ## Characterizations of the per-row transaction loops -/

theorem setStatusRow_id (x : Nat) (st : AssetStatus) (a : Asset) :
    (setStatusRow x st a).id = a.id := by
  unfold setStatusRow
  split <;> rfl

theorem commitLoop_assets (tid : Nat) (l : List TransferAssetReq) (db : DB) :
    (commitLoop tid l db).assets = db.assets.map fun a =>
      if a.id ∈ l.map TransferAssetReq.assetId then
        { a with status := AssetStatus.IN_TRANSIT } else a := by
  induction l generalizing db with
  | nil =>
    show db.assets = _
    simp
  | cons r rs ih =>
    have hstep : commitLoop tid (r :: rs) db = commitLoop tid rs
        { db with
          transferItems := db.transferItems ++
            [{ transferId := tid, assetId := r.assetId,
               quantity := r.quantity.getD 1, notes := r.notes }],
          assets := db.assets.map (setStatusRow r.assetId AssetStatus.IN_TRANSIT) } := rfl
    rw [hstep, ih]
    show (db.assets.map (setStatusRow r.assetId AssetStatus.IN_TRANSIT)).map _ = _
    rw [List.map_map]
    refine List.map_congr_left fun a _ => ?_
    simp only [Function.comp, setStatusRow, List.map_cons, List.mem_cons]
    by_cases h1 : a.id = r.assetId
    · by_cases h2 : a.id ∈ rs.map TransferAssetReq.assetId <;> simp [h1, h2]
    · by_cases h2 : a.id ∈ rs.map TransferAssetReq.assetId <;> simp [h1, h2]

theorem commitLoop_transferItems (tid : Nat) (l : List TransferAssetReq) (db : DB) :
    (commitLoop tid l db).transferItems = db.transferItems ++ l.map fun r =>
      { transferId := tid, assetId := r.assetId,
        quantity := r.quantity.getD 1, notes := r.notes } := by
  induction l generalizing db with
  | nil =>
    show db.transferItems = _
    simp
  | cons r rs ih =>
    have hstep : commitLoop tid (r :: rs) db = commitLoop tid rs
        { db with
          transferItems := db.transferItems ++
            [{ transferId := tid, assetId := r.assetId,
               quantity := r.quantity.getD 1, notes := r.notes }],
          assets := db.assets.map (setStatusRow r.assetId AssetStatus.IN_TRANSIT) } := rfl
    rw [hstep, ih]
    simp

theorem commitLoop_frame (tid : Nat) (l : List TransferAssetReq) (db : DB) :
    (commitLoop tid l db).transfers = db.transfers ∧
    (commitLoop tid l db).assignments = db.assignments ∧
    (commitLoop tid l db).expenditures = db.expenditures ∧
    (commitLoop tid l db).bases = db.bases ∧
    (commitLoop tid l db).users = db.users ∧
    (commitLoop tid l db).nextId = db.nextId := by
  induction l generalizing db with
  | nil => exact ⟨rfl, rfl, rfl, rfl, rfl, rfl⟩
  | cons r rs ih =>
    have hstep : commitLoop tid (r :: rs) db = commitLoop tid rs
        { db with
          transferItems := db.transferItems ++
            [{ transferId := tid, assetId := r.assetId,
               quantity := r.quantity.getD 1, notes := r.notes }],
          assets := db.assets.map (setStatusRow r.assetId AssetStatus.IN_TRANSIT) } := rfl
    rw [hstep]
    exact ih _

theorem completeLoop_assets (tb : Nat) (items : List TransferItem) (db : DB) :
    (completeLoop tb items db).assets = db.assets.map fun a =>
      if a.id ∈ items.map TransferItem.assetId then
        { a with baseId := tb, status := AssetStatus.AVAILABLE } else a := by
  induction items generalizing db with
  | nil =>
    show db.assets = _
    simp
  | cons it rest ih =>
    have hstep : completeLoop tb (it :: rest) db = completeLoop tb rest
        { db with assets := db.assets.map fun a =>
            if a.id = it.assetId then
              { a with baseId := tb, status := AssetStatus.AVAILABLE }
            else a } := rfl
    rw [hstep, ih]
    show (db.assets.map _).map _ = _
    rw [List.map_map]
    refine List.map_congr_left fun a _ => ?_
    simp only [Function.comp, List.map_cons, List.mem_cons]
    by_cases h1 : a.id = it.assetId
    · by_cases h2 : a.id ∈ rest.map TransferItem.assetId <;> simp [h1, h2]
    · by_cases h2 : a.id ∈ rest.map TransferItem.assetId <;> simp [h1, h2]

theorem completeLoop_frame (tb : Nat) (items : List TransferItem) (db : DB) :
    (completeLoop tb items db).transfers = db.transfers ∧
    (completeLoop tb items db).assignments = db.assignments ∧
    (completeLoop tb items db).expenditures = db.expenditures ∧
    (completeLoop tb items db).transferItems = db.transferItems ∧
    (completeLoop tb items db).bases = db.bases ∧
    (completeLoop tb items db).users = db.users ∧
    (completeLoop tb items db).nextId = db.nextId := by
  induction items generalizing db with
  | nil => exact ⟨rfl, rfl, rfl, rfl, rfl, rfl, rfl⟩
  | cons it rest ih =>
    have hstep : completeLoop tb (it :: rest) db = completeLoop tb rest
        { db with assets := db.assets.map fun a =>
            if a.id = it.assetId then
              { a with baseId := tb, status := AssetStatus.AVAILABLE }
            else a } := rfl
    rw [hstep]
    exact ih _

theorem cancelLoop_assets (items : List TransferItem) (db : DB) :
    (cancelLoop items db).assets = db.assets.map fun a =>
      if a.id ∈ items.map TransferItem.assetId then
        { a with status := AssetStatus.AVAILABLE } else a := by
  induction items generalizing db with
  | nil =>
    show db.assets = _
    simp
  | cons it rest ih =>
    have hstep : cancelLoop (it :: rest) db = cancelLoop rest
        { db with assets := db.assets.map (setStatusRow it.assetId AssetStatus.AVAILABLE) } :=
      rfl
    rw [hstep, ih]
    show (db.assets.map _).map _ = _
    rw [List.map_map]
    refine List.map_congr_left fun a _ => ?_
    simp only [Function.comp, setStatusRow, List.map_cons, List.mem_cons]
    by_cases h1 : a.id = it.assetId
    · by_cases h2 : a.id ∈ rest.map TransferItem.assetId <;> simp [h1, h2]
    · by_cases h2 : a.id ∈ rest.map TransferItem.assetId <;> simp [h1, h2]

theorem cancelLoop_frame (items : List TransferItem) (db : DB) :
    (cancelLoop items db).transfers = db.transfers ∧
    (cancelLoop items db).assignments = db.assignments ∧
    (cancelLoop items db).expenditures = db.expenditures ∧
    (cancelLoop items db).transferItems = db.transferItems ∧
    (cancelLoop items db).bases = db.bases ∧
    (cancelLoop items db).users = db.users ∧
    (cancelLoop items db).nextId = db.nextId := by
  induction items generalizing db with
  | nil => exact ⟨rfl, rfl, rfl, rfl, rfl, rfl, rfl⟩
  | cons it rest ih =>
    have hstep : cancelLoop (it :: rest) db = cancelLoop rest
        { db with assets := db.assets.map (setStatusRow it.assetId AssetStatus.AVAILABLE) } :=
      rfl
    rw [hstep]
    exact ih _

/-- Pointwise form of the `expendLoop` update: the LAST matching snapshot row
wins, hence the lookup over the reversed snapshot. -/
def expendUpd (now : Nat) (openAs : List Assignment) (x : Assignment) : Assignment :=
  match openAs.reverse.find? (fun o => decide (o.id = x.id)) with
  | some o => { x with returnedAt := some now, notes := expendAutoNotes o }
  | none => x

theorem expendLoop_assignments (now : Nat) (openAs : List Assignment) (db : DB) :
    (expendLoop now openAs db).assignments =
      db.assignments.map (expendUpd now openAs) := by
  induction openAs generalizing db with
  | nil =>
    show db.assignments = _
    have hid : expendUpd now ([] : List Assignment) = fun x => x := by
      funext x
      rfl
    rw [hid, List.map_id']
  | cons o os ih =>
    have hstep : expendLoop now (o :: os) db = expendLoop now os
        { db with assignments := db.assignments.map fun a =>
            if a.id = o.id then
              { a with returnedAt := some now, notes := expendAutoNotes o }
            else a } := rfl
    rw [hstep, ih]
    show (db.assignments.map _).map _ = _
    rw [List.map_map]
    refine List.map_congr_left fun a _ => ?_
    show expendUpd now os (if a.id = o.id then
        { a with returnedAt := some now, notes := expendAutoNotes o } else a) =
      expendUpd now (o :: os) a
    by_cases h1 : a.id = o.id
    · rw [if_pos h1]
      show (match os.reverse.find? (fun z => decide (z.id = a.id)) with
        | some o2 =>
          { a with returnedAt := some now, notes := expendAutoNotes o2 }
        | none => { a with returnedAt := some now, notes := expendAutoNotes o } : Assignment)
        = expendUpd now (o :: os) a
      unfold expendUpd
      rw [List.reverse_cons]
      cases hfind : os.reverse.find? (fun z => decide (z.id = a.id)) with
      | some o2 => rw [find?_append_some _ hfind]
      | none =>
        rw [find?_append_none _ hfind,
          List.find?_cons_of_pos _ (by simpa using h1.symm)]
    · rw [if_neg h1]
      unfold expendUpd
      rw [List.reverse_cons]
      cases hfind : os.reverse.find? (fun z => decide (z.id = a.id)) with
      | some o2 => rw [find?_append_some _ hfind]
      | none =>
        rw [find?_append_none _ hfind,
          List.find?_cons_of_neg _ (by simpa using fun h => h1 h.symm), List.find?_nil]

/-- The whole `createTransfer` validation passes exactly when all four checks
pass. -/
theorem createTransferValidate_eq_none (db : DB) (user : User) (req : TransferReq) :
    createTransferValidate db user req = none ↔
      req.fromBaseId ≠ req.toBaseId ∧
      ¬(user.role = Role.BASE_COMMANDER ∧ user.baseId ≠ some req.fromBaseId) ∧
      (db.findBase req.fromBaseId).isSome ∧ (db.findBase req.toBaseId).isSome ∧
      (availableTransferAssets db req).length = (transferAssetIds req).length := by
  unfold createTransferValidate
  split_ifs with h1 h2 h3 h4 <;>
    simp_all [Option.isNone_iff_eq_none, Option.isSome_iff_ne_none] <;>
    tauto

/-- `createTransfer` succeeds exactly when validation passes, and then returns
the committed state. -/
theorem createTransfer_ok_iff (db : DB) (user : User) (req : TransferReq)
    (code : String) (x : Nat) (db1 : DB) :
    createTransfer db user req code = (Except.ok x, db1) ↔
      createTransferValidate db user req = none ∧ x = db.nextId ∧
        db1 = (createTransferCommit db user req code).2 := by
  unfold createTransfer
  cases hv : createTransferValidate db user req with
  | some e => simp
  | none =>
    show (Except.ok (createTransferCommit db user req code).1,
          (createTransferCommit db user req code).2) = (Except.ok x, db1) ↔ _
    constructor
    · intro h
      have h1 := congrArg Prod.fst h
      have h2 := congrArg Prod.snd h
      simp only at h1 h2
      refine ⟨rfl, ?_, h2.symm⟩
      have hc : (createTransferCommit db user req code).1 = db.nextId := rfl
      rw [hc] at h1
      exact (Except.ok.inj h1).symm
    · rintro ⟨-, rfl, rfl⟩
      rfl

/-- If `createTransfer` fails, the database is unchanged. -/
theorem createTransfer_error_frame (db : DB) (user : User) (req : TransferReq)
    (code : String) (e : ApiError)
    (h : (createTransfer db user req code).1 = Except.error e) :
    (createTransfer db user req code).2 = db := by
  unfold createTransfer at h ⊢
  cases hv : createTransferValidate db user req with
  | some e2 => rfl
  | none => rw [hv] at h; simp at h

/-- When the `availableAssets` count matches the request, every requested id
names an AVAILABLE asset of the source base. -/
theorem available_covers (db : DB) (req : TransferReq)
    (hwf : (db.assets.map Asset.id).Nodup)
    (hlen : (availableTransferAssets db req).length = (transferAssetIds req).length) :
    ∀ x ∈ transferAssetIds req, ∃ a ∈ db.assets,
      a.id = x ∧ a.status = AssetStatus.AVAILABLE ∧ a.baseId = req.fromBaseId := by
  intro x hx
  have hcov := filter_covers Asset.id hwf
    (fun a => decide (a.id ∈ transferAssetIds req ∧ a.baseId = req.fromBaseId ∧
      a.status = AssetStatus.AVAILABLE))
    (transferAssetIds req)
    (fun a hpa => (of_decide_eq_true hpa).1) hlen x hx
  rcases hcov with ⟨a, hmem, hkey, hpa⟩
  have hp := of_decide_eq_true hpa
  exact ⟨a, hmem, hkey, hp.2.2, hp.2.1⟩

theorem expendLoop_frame (now : Nat) (openAs : List Assignment) (db : DB) :
    (expendLoop now openAs db).assets = db.assets ∧
    (expendLoop now openAs db).transfers = db.transfers ∧
    (expendLoop now openAs db).expenditures = db.expenditures ∧
    (expendLoop now openAs db).transferItems = db.transferItems ∧
    (expendLoop now openAs db).bases = db.bases ∧
    (expendLoop now openAs db).users = db.users ∧
    (expendLoop now openAs db).nextId = db.nextId := by
  induction openAs generalizing db with
  | nil => exact ⟨rfl, rfl, rfl, rfl, rfl, rfl, rfl⟩
  | cons o os ih =>
    have hstep : expendLoop now (o :: os) db = expendLoop now os
        { db with assignments := db.assignments.map fun a =>
            if a.id = o.id then
              { a with returnedAt := some now, notes := expendAutoNotes o }
            else a } := rfl
    rw [hstep]
    exact ih _

/-! ## Concrete fixtures -/

/-- A concrete ADMIN caller (role-based scoping disabled) for concrete runs. -/
def adminU : User := { id := 1, username := "admin", role := Role.ADMIN, baseId := none }

/-- A concrete base. -/
def baseAlpha : Base := { id := 1, name := "Alpha", code := "A", location := "North" }

/-- A second concrete base. -/
def baseBravo : Base := { id := 2, name := "Bravo", code := "B", location := "South" }

/-! ## C2 — hard delete policy -/

/-- An asset with one CLOSED assignment on record and nothing else. -/
def c2asset : Asset :=
  { id := 10, serialNumber := "SN-10", name := "Rifle", description := none,
    equipmentType := "WEAPON", status := AssetStatus.AVAILABLE, baseId := 1 }

/-- A CLOSED assignment of asset 10 (returned at time 5). -/
def c2assignment : Assignment :=
  { id := 20, assetId := 10, assignedToId := 1, baseId := 1,
    purpose := "training", notes := none, returnedAt := some 5, createdById := 1 }

/-- A database where asset 10 has one closed assignment, no transfer items and
no expenditures. -/
def c2db : DB :=
  { bases := [baseAlpha], users := [adminU], assets := [c2asset],
    assignments := [c2assignment],
    transfers := [], transferItems := [], expenditures := [], nextId := 100 }

/-- If no assignment ever references the asset, none is open. -/
theorem openAssignments_nil_of_ever_nil (db : DB) (x : Nat)
    (h : db.assignmentsForAsset x = []) : db.openAssignmentsOf x = [] := by
  unfold DB.openAssignmentsOf
  rw [List.filter_eq_nil_iff]
  intro a ha hpa
  have hp : a.assetId = x ∧ a.returnedAt = none := by simpa using hpa
  have hmem : a ∈ db.assignmentsForAsset x :=
    List.mem_filter.mpr ⟨ha, by simpa using hp.1⟩
  rw [h] at hmem
  exact absurd hmem (List.not_mem_nil a)

/-- The referential-restriction test passes exactly when no referencing row
of any of the three tables remains. -/
theorem assetReferenced_false_iff (db : DB) (x : Nat) :
    db.assetReferenced x = false ↔
      db.assignmentsForAsset x = [] ∧ db.itemsForAsset x = [] ∧
        db.expendituresForAsset x = [] := by
  unfold DB.assetReferenced
  simp [and_assoc]

/-- C2 counterexample: the only record of asset 10 is a CLOSED assignment.
The claim says the deletion must fail with a ConflictError; instead the
controller explicit checks all pass (they only count OPEN assignments), the
store referential restriction aborts the delete, and the caller receives the
generic internal (HTTP 500) error — not a ConflictError — with the asset row
unchanged. -/
theorem c2_counterexample :
    (c2db.assignmentsForAsset 10).length = 1 ∧
    deleteAsset c2db adminU 10 =
      (Except.error (ApiError.internal "Server error deleting asset"), c2db) ∧
    (∀ m, (deleteAsset c2db adminU 10).1 ≠ Except.error (ApiError.conflict m)) ∧
    (deleteAsset c2db adminU 10).2.findAsset 10 = some c2asset := by
  refine ⟨rfl, rfl, ?_, rfl⟩
  intro m h
  rw [show (deleteAsset c2db adminU 10).1 =
    Except.error (ApiError.internal "Server error deleting asset") from rfl] at h
  exact ApiError.noConfusion (Except.error.inj h)

/-- C2 (amended): hard delete succeeds if and only if the asset has zero
assignments ever recorded, zero transfer-item memberships and zero
expenditures, and then exactly the asset row is removed.  Open assignments,
transfer items and expenditures are rejected by the controller with a
specific ConflictError, but an asset whose only records are CLOSED
assignments passes those checks and the store ON DELETE RESTRICT aborts the
delete, surfaced as the generic internal (HTTP 500) error rather than the
ConflictError the claim names.  In every failure case the database is
unchanged. -/
theorem c2_deleteAsset_spec (db : DB) (user : User) (x : Nat) (asset : Asset)
    (hfind : db.findAsset x = some asset) :
    ((deleteAsset db user x).1 = Except.ok x ↔
       db.assignmentsForAsset x = [] ∧ db.itemsForAsset x = [] ∧
         db.expendituresForAsset x = []) ∧
    ((deleteAsset db user x).1 = Except.ok x →
       (deleteAsset db user x).2 =
         { db with assets := db.assets.filter fun a => decide (a.id ≠ x) }) ∧
    (db.openAssignmentsOf x = [] → db.itemsForAsset x = [] →
       db.expendituresForAsset x = [] → db.assignmentsForAsset x ≠ [] →
       deleteAsset db user x =
         (Except.error (ApiError.internal "Server error deleting asset"), db)) ∧
    (¬(db.openAssignmentsOf x = [] ∧ db.itemsForAsset x = [] ∧
         db.expendituresForAsset x = []) →
       ∃ m, deleteAsset db user x = (Except.error (ApiError.conflict m), db)) ∧
    (∀ e, (deleteAsset db user x).1 = Except.error e →
       (deleteAsset db user x).2 = db) := by
  unfold deleteAsset
  rw [hfind]
  split_ifs with h1 h2 h3 h4
  · have hne : db.openAssignmentsOf x ≠ [] := by
      intro he
      rw [he] at h1
      simp at h1
    have hevne : db.assignmentsForAsset x ≠ [] := by
      intro he
      exact hne (openAssignments_nil_of_ever_nil db x he)
    exact ⟨⟨fun h => by simp at h, fun h => absurd h.1 hevne⟩,
      fun h => by simp at h, fun ho _ _ _ => absurd ho hne, fun _ => ⟨_, rfl⟩,
      fun e _ => rfl⟩
  · have hne : db.itemsForAsset x ≠ [] := by
      intro he
      rw [he] at h2
      simp at h2
    exact ⟨⟨fun h => by simp at h, fun h => absurd h.2.1 hne⟩,
      fun h => by simp at h, fun _ hi _ _ => absurd hi hne, fun _ => ⟨_, rfl⟩,
      fun e _ => rfl⟩
  · have hne : db.expendituresForAsset x ≠ [] := by
      intro he
      rw [he] at h3
      simp at h3
    exact ⟨⟨fun h => by simp at h, fun h => absurd h.2.2 hne⟩,
      fun h => by simp at h, fun _ _ hx2 _ => absurd hx2 hne, fun _ => ⟨_, rfl⟩,
      fun e _ => rfl⟩
  · have e1 : db.openAssignmentsOf x = [] := by
      rcases Nat.eq_zero_or_pos (db.openAssignmentsOf x).length with h | h
      · exact List.length_eq_zero.mp h
      · exact absurd h h1
    have e2 : db.itemsForAsset x = [] := by
      rcases Nat.eq_zero_or_pos (db.itemsForAsset x).length with h | h
      · exact List.length_eq_zero.mp h
      · exact absurd h h2
    have e3 : db.expendituresForAsset x = [] := by
      rcases Nat.eq_zero_or_pos (db.expendituresForAsset x).length with h | h
      · exact List.length_eq_zero.mp h
      · exact absurd h h3
    refine ⟨⟨fun h => by simp at h, fun hc => ?_⟩,
      fun h => by simp at h, fun _ _ _ _ => rfl, fun hc => absurd ⟨e1, e2, e3⟩ hc,
      fun e _ => rfl⟩
    rw [(assetReferenced_false_iff db x).mpr hc] at h4
    simp at h4
  · have e1 : db.openAssignmentsOf x = [] := by
      rcases Nat.eq_zero_or_pos (db.openAssignmentsOf x).length with h | h
      · exact List.length_eq_zero.mp h
      · exact absurd h h1
    have e2 : db.itemsForAsset x = [] := by
      rcases Nat.eq_zero_or_pos (db.itemsForAsset x).length with h | h
      · exact List.length_eq_zero.mp h
      · exact absurd h h2
    have e3 : db.expendituresForAsset x = [] := by
      rcases Nat.eq_zero_or_pos (db.expendituresForAsset x).length with h | h
      · exact List.length_eq_zero.mp h
      · exact absurd h h3
    have hall := (assetReferenced_false_iff db x).mp (Bool.eq_false_iff.mpr h4)
    exact ⟨⟨fun _ => hall, fun _ => rfl⟩, fun _ => rfl,
      fun _ _ _ hev => absurd hall.1 hev, fun hc => absurd ⟨e1, e2, e3⟩ hc,
      fun e he => by simp at he⟩

/-- Witness for C2 (amended) at a concrete database. -/
theorem c2_deleteAsset_spec_witness :
    c2db.findAsset 10 = some c2asset ∧
    ((deleteAsset c2db adminU 10).1 = Except.ok 10 ↔
      c2db.assignmentsForAsset 10 = [] ∧ c2db.itemsForAsset 10 = [] ∧
        c2db.expendituresForAsset 10 = []) :=
  ⟨rfl, (c2_deleteAsset_spec c2db adminU 10 c2asset rfl).1⟩

/-! ## C1 — terminal statuses -/

/-- An EXPENDED asset. -/
def c1asset : Asset :=
  { id := 11, serialNumber := "SN-11", name := "Shell", description := none,
    equipmentType := "AMMUNITION", status := AssetStatus.EXPENDED, baseId := 1 }

/-- The expenditure record of asset 11. -/
def c1expenditure : Expenditure :=
  { id := 30, assetId := 11, baseId := 1, quantity := 1,
    reason := "training", description := none, expendedAt := 4, createdById := 1 }

/-- A database holding the expended asset 11 and its expenditure record. -/
def c1db : DB :=
  { bases := [baseAlpha], users := [adminU], assets := [c1asset],
    assignments := [], transfers := [], transferItems := [],
    expenditures := [c1expenditure],
    nextId := 100 }

/-- An update request supplying only a new status. -/
def c1updReq : AssetUpdateReq :=
  { serialNumber := none, name := none, description := none,
    equipmentType := none, status := some AssetStatus.AVAILABLE }

/-- C1 counterexample: the claim says NO operation changes the status of an
asset in a terminal status, but `updateAsset` overwrites the status of the
EXPENDED asset 11 with any supplied value, here AVAILABLE. -/
theorem c1_counterexample :
    (c1db.findAsset 11).map Asset.status = some AssetStatus.EXPENDED ∧
    (updateAsset c1db adminU 11 c1updReq).1 = Except.ok 11 ∧
    ((updateAsset c1db adminU 11 c1updReq).2.findAsset 11).map Asset.status =
      some AssetStatus.AVAILABLE :=
  ⟨rfl, rfl, rfl⟩

/-- C1 (amended): an EXPENDED asset is never assigned, transferred or expended
again — `createAssignment`, `createTransfer` and `createExpenditure` each fail
and leave the database unchanged — but `updateAsset` may overwrite a terminal
status with any supplied value (and `createExpenditure` only rejects EXPENDED,
not DECOMMISSIONED). -/
theorem c1_expended_never_reused (db : DB) (aid : Nat) (asset : Asset)
    (hwf : (db.assets.map Asset.id).Nodup)
    (hfind : db.findAsset aid = some asset)
    (hst : asset.status = AssetStatus.EXPENDED) :
    (∀ (user : User) (req : AssignmentReq), req.assetId = aid →
       ∃ e, createAssignment db user req = (Except.error e, db)) ∧
    (∀ (user : User) (req : TransferReq) (code : String), aid ∈ transferAssetIds req →
       ∃ e, createTransfer db user req code = (Except.error e, db)) ∧
    (∀ (user : User) (req : ExpenditureReq) (now : Nat), req.assetId = aid →
       ∃ e, createExpenditure db user req now = (Except.error e, db)) := by
  refine ⟨?_, ?_, ?_⟩
  · intro user req hreq
    unfold createAssignment
    rw [hreq, hfind]
    dsimp only
    by_cases hb : asset.baseId = cmdTargetBase user req.baseId
    · rw [if_neg (fun h => h hb), if_pos (by rw [hst]; decide)]
      exact ⟨_, rfl⟩
    · rw [if_pos hb]
      exact ⟨_, rfl⟩
  · intro user req code hreq
    cases hv : createTransferValidate db user req with
    | some e =>
      refine ⟨e, ?_⟩
      unfold createTransfer
      rw [hv]
    | none =>
      exfalso
      have hlen := ((createTransferValidate_eq_none db user req).mp hv).2.2.2.2
      rcases available_covers db req hwf hlen aid hreq with ⟨a, hamem, haid, hav, -⟩
      have hfa : db.findAsset aid = some a := by
        have := find?_key_of_mem Asset.id hwf hamem
        rw [haid] at this
        exact this
      rw [hfind] at hfa
      have : asset = a := Option.some_injective _ hfa
      rw [this, hav] at hst
      exact absurd hst (by decide)
  · intro user req now hreq
    unfold createExpenditure
    rw [hreq, hfind]
    dsimp only
    by_cases hb : asset.baseId = cmdTargetBase user req.baseId
    · rw [if_neg (fun h => h hb), if_pos hst]
      exact ⟨_, rfl⟩
    · rw [if_pos hb]
      exact ⟨_, rfl⟩

/-- Witness for C1 (amended) at a concrete database. -/
theorem c1_expended_never_reused_witness :
    ((c1db.assets.map Asset.id).Nodup ∧ c1db.findAsset 11 = some c1asset ∧
      c1asset.status = AssetStatus.EXPENDED) ∧
    (∃ e, createAssignment c1db adminU
      { assetId := 11, assignedToId := 1, baseId := 1, purpose := "guard",
        notes := none } = (Except.error e, c1db)) :=
  ⟨⟨by decide, rfl, rfl⟩,
    (c1_expended_never_reused c1db 11 c1asset (by decide) rfl rfl).1 adminU _ rfl⟩

/-! ## C10 — commander base override -/

/-- C10: for a BASE_COMMANDER with a non-null home base, `createAsset`,
`createAssignment` and `createExpenditure` ignore the base id supplied in the
request body and silently retarget the operation to the commander home base,
while `createTransfer` rejects a mismatched source base with a ForbiddenError
and leaves the database unchanged. -/
theorem c10_commander_base_override (user : User) (b : Nat)
    (hrole : user.role = Role.BASE_COMMANDER) (hbase : user.baseId = some b) :
    (∀ (db : DB) (req : AssetCreateReq) (b₁ b₂ : Nat),
       createAsset db user { req with baseId := b₁ } =
         createAsset db user { req with baseId := b₂ }) ∧
    (∀ (db : DB) (req : AssetCreateReq) (x : Nat) (db1 : DB),
       createAsset db user req = (Except.ok x, db1) →
       ∃ a ∈ db1.assets, a.id = x ∧ a.baseId = b) ∧
    (∀ (db : DB) (req : AssignmentReq) (b₁ b₂ : Nat),
       createAssignment db user { req with baseId := b₁ } =
         createAssignment db user { req with baseId := b₂ }) ∧
    (∀ (db : DB) (req : AssignmentReq) (x : Nat) (db1 : DB),
       createAssignment db user req = (Except.ok x, db1) →
       ∃ a ∈ db1.assignments, a.id = x ∧ a.baseId = b) ∧
    (∀ (db : DB) (req : ExpenditureReq) (now : Nat) (b₁ b₂ : Nat),
       createExpenditure db user { req with baseId := b₁ } now =
         createExpenditure db user { req with baseId := b₂ } now) ∧
    (∀ (db : DB) (req : ExpenditureReq) (now : Nat) (x : Nat) (db1 : DB),
       createExpenditure db user req now = (Except.ok x, db1) →
       ∃ e ∈ db1.expenditures, e.id = x ∧ e.baseId = b) ∧
    (∀ (db : DB) (req : TransferReq) (code : String),
       req.fromBaseId ≠ req.toBaseId → req.fromBaseId ≠ b →
       createTransfer db user req code =
         (Except.error (ApiError.forbidden
           "Base commanders can only transfer from their assigned base"), db)) := by
  have ht : ∀ x, cmdTargetBase user x = b := by
    intro x
    unfold cmdTargetBase
    rw [hrole, hbase]
  refine ⟨?_, ?_, ?_, ?_, ?_, ?_, ?_⟩
  · intro db req b₁ b₂
    unfold createAsset
    rw [ht, ht]
  · intro db req x db1 h
    unfold createAsset at h
    rw [ht] at h
    dsimp only at h
    cases hb2 : db.findBase b with
    | none =>
      rw [hb2] at h
      simp at h
    | some base =>
      rw [hb2] at h
      cases hs : db.assets.find? (fun a => decide (a.serialNumber = req.serialNumber)) with
      | some a2 =>
        rw [hs] at h
        simp at h
      | none =>
        rw [hs] at h
        dsimp only at h
        rw [Prod.mk.injEq] at h
        refine ⟨{ id := db.nextId, serialNumber := req.serialNumber, name := req.name,
                  description := req.description, equipmentType := req.equipmentType,
                  status := AssetStatus.AVAILABLE, baseId := b }, ?_, ?_, rfl⟩
        · rw [← h.2]
          exact List.mem_append_right _ (List.mem_singleton_self _)
        · exact Except.ok.inj h.1
  · intro db req b₁ b₂
    unfold createAssignment
    rw [ht, ht]
  · intro db req x db1 h
    unfold createAssignment at h
    rw [ht] at h
    dsimp only at h
    split at h
    · simp at h
    · split at h
      · simp at h
      · split at h
        · simp at h
        · split at h
          · simp at h
          · split at h
            · simp at h
            · split at h
              · simp at h
              · rw [Prod.mk.injEq] at h
                refine ⟨{ id := db.nextId, assetId := req.assetId,
                          assignedToId := req.assignedToId, baseId := b,
                          purpose := req.purpose, notes := req.notes,
                          returnedAt := none, createdById := user.id }, ?_, ?_, rfl⟩
                · rw [← h.2]
                  exact List.mem_append_right _ (List.mem_singleton_self _)
                · exact Except.ok.inj h.1
  · intro db req now b₁ b₂
    unfold createExpenditure
    rw [ht, ht]
  · intro db req now x db1 h
    unfold createExpenditure at h
    rw [ht] at h
    dsimp only at h
    split at h
    · simp at h
    · split at h
      · simp at h
      · split at h
        · simp at h
        · rw [Prod.mk.injEq] at h
          refine ⟨{ id := db.nextId, assetId := req.assetId, baseId := b,
                    quantity := req.quantity, reason := req.reason,
                    description := req.description,
                    expendedAt := req.expendedAt.getD now,
                    createdById := user.id }, ?_, ?_, rfl⟩
          · rw [← h.2]
            have hexp := (expendLoop_frame now (db.openAssignmentsOf req.assetId)
              { db with
                expenditures := db.expenditures ++
                  [{ id := db.nextId, assetId := req.assetId, baseId := b,
                     quantity := req.quantity, reason := req.reason,
                     description := req.description,
                     expendedAt := req.expendedAt.getD now, createdById := user.id }],
                assets := db.assets.map (setStatusRow req.assetId AssetStatus.EXPENDED),
                nextId := db.nextId + 1 }).2.2.1
            rw [hexp]
            exact List.mem_append_right _ (List.mem_singleton_self _)
          · exact Except.ok.inj h.1
  · intro db req code hne hnb
    have hv : createTransferValidate db user req =
        some (ApiError.forbidden
          "Base commanders can only transfer from their assigned base") := by
      unfold createTransferValidate
      rw [if_neg hne,
        if_pos ⟨hrole, by rw [hbase]; exact fun hc => (Ne.symm hnb) (Option.some.inj hc)⟩]
    unfold createTransfer
    rw [hv]

/-- A concrete BASE_COMMANDER whose home base is base 1. -/
def cmdrU : User :=
  { id := 2, username := "cmdr", role := Role.BASE_COMMANDER, baseId := some 1 }

/-- A concrete asset-creation body naming base 2. -/
def c10reqB2 : AssetCreateReq :=
  { serialNumber := "SN-77", name := "Radio", description := none,
    equipmentType := "COMMUNICATION", baseId := 2 }

/-- A concrete asset-creation body naming base 1. -/
def c10reqB1 : AssetCreateReq :=
  { serialNumber := "SN-77", name := "Radio", description := none,
    equipmentType := "COMMUNICATION", baseId := 1 }

/-- Witness for C10 at a concrete commander and database: the body base id is
irrelevant to `createAsset`. -/
theorem c10_commander_base_override_witness :
    (cmdrU.role = Role.BASE_COMMANDER ∧ cmdrU.baseId = some 1) ∧
    createAsset c2db cmdrU c10reqB2 = createAsset c2db cmdrU c10reqB1 :=
  ⟨⟨rfl, rfl⟩,
    (c10_commander_base_override cmdrU 1 rfl rfl).1 c2db c10reqB1 2 1⟩

/-! ## C8 — create assignment -/

/-- C8: create assignment succeeds only if the asset is AVAILABLE, has no open
assignment, sits at the target base, and the assigned user belongs to the
target base; on success the assignment row is created atomically with the
asset becoming ASSIGNED; each violated business precondition yields the
specific ConflictError naming the broken rule and leaves the database
unchanged. -/
theorem c8_createAssignment_spec (db : DB) (user : User) (req : AssignmentReq)
    (asset : Asset) (hfind : db.findAsset req.assetId = some asset) :
    (∀ (x : Nat) (db1 : DB), createAssignment db user req = (Except.ok x, db1) →
       asset.status = AssetStatus.AVAILABLE ∧
       db.openAssignmentsOf req.assetId = [] ∧
       asset.baseId = cmdTargetBase user req.baseId ∧
       (∃ u, db.findUser req.assignedToId = some u ∧
          u.baseId = some (cmdTargetBase user req.baseId)) ∧
       x = db.nextId ∧
       db1 = { db with
               assignments := db.assignments ++
                 [{ id := db.nextId, assetId := req.assetId,
                    assignedToId := req.assignedToId,
                    baseId := cmdTargetBase user req.baseId, purpose := req.purpose,
                    notes := req.notes, returnedAt := none, createdById := user.id }],
               assets := db.assets.map (setStatusRow req.assetId AssetStatus.ASSIGNED),
               nextId := db.nextId + 1 }) ∧
    (asset.baseId ≠ cmdTargetBase user req.baseId →
       createAssignment db user req =
         (Except.error (ApiError.conflict "Asset is not at the specified base"), db)) ∧
    (asset.baseId = cmdTargetBase user req.baseId →
       asset.status ≠ AssetStatus.AVAILABLE →
       createAssignment db user req =
         (Except.error (ApiError.conflict "Asset is not available for assignment"), db)) ∧
    (asset.baseId = cmdTargetBase user req.baseId →
       asset.status = AssetStatus.AVAILABLE →
       db.openAssignmentsOf req.assetId ≠ [] →
       createAssignment db user req =
         (Except.error (ApiError.conflict "Asset is already assigned to someone else"), db)) ∧
    (∀ u, asset.baseId = cmdTargetBase user req.baseId →
       asset.status = AssetStatus.AVAILABLE →
       db.openAssignmentsOf req.assetId = [] →
       db.findUser req.assignedToId = some u →
       u.baseId ≠ some (cmdTargetBase user req.baseId) →
       createAssignment db user req =
         (Except.error (ApiError.conflict "User is not at the same base as the asset"), db)) := by
  refine ⟨?_, ?_, ?_, ?_, ?_⟩
  · intro x db1 h
    unfold createAssignment at h
    rw [hfind] at h
    dsimp only at h
    by_cases hb : asset.baseId = cmdTargetBase user req.baseId
    · rw [if_neg (fun hh => hh hb)] at h
      by_cases hst : asset.status = AssetStatus.AVAILABLE
      · rw [if_neg (fun hh => hh hst)] at h
        by_cases hopen : db.openAssignmentsOf req.assetId = []
        · rw [if_neg (by rw [hopen]; simp)] at h
          cases hu : db.findUser req.assignedToId with
          | none =>
            rw [hu] at h
            simp at h
          | some u =>
            rw [hu] at h
            dsimp only at h
            by_cases hub : u.baseId = some (cmdTargetBase user req.baseId)
            · rw [if_neg (fun hh => hh hub)] at h
              rw [Prod.mk.injEq] at h
              exact ⟨hst, hopen, hb, ⟨u, rfl, hub⟩, (Except.ok.inj h.1).symm, h.2.symm⟩
            · rw [if_pos hub] at h
              simp at h
        · rw [if_pos (List.length_pos.mpr hopen)] at h
          simp at h
      · rw [if_pos hst] at h
        simp at h
    · rw [if_pos hb] at h
      simp at h
  · intro hb
    unfold createAssignment
    rw [hfind]
    dsimp only
    rw [if_pos hb]
  · intro hb hst
    unfold createAssignment
    rw [hfind]
    dsimp only
    rw [if_neg (fun hh => hh hb), if_pos hst]
  · intro hb hst hopen
    unfold createAssignment
    rw [hfind]
    dsimp only
    rw [if_neg (fun hh => hh hb), if_neg (fun hh => hh hst),
      if_pos (List.length_pos.mpr hopen)]
  · intro u hb hst hopen hu hub
    unfold createAssignment
    rw [hfind]
    dsimp only
    rw [if_neg (fun hh => hh hb), if_neg (fun hh => hh hst),
      if_neg (by rw [hopen]; simp), hu]
    dsimp only
    rw [if_pos hub]

/-- An available LOGISTICS_OFFICER at base 1 to receive an assignment. -/
def c8soldier : User :=
  { id := 3, username := "soldier", role := Role.LOGISTICS_OFFICER, baseId := some 1 }

/-- A database with the available asset 10 and the soldier of base 1. -/
def c8db : DB :=
  { bases := [baseAlpha], users := [adminU, c8soldier], assets := [c2asset],
    assignments := [], transfers := [], transferItems := [], expenditures := [],
    nextId := 200 }

/-- A well-formed assignment request for asset 10 to user 3 at base 1. -/
def c8req : AssignmentReq :=
  { assetId := 10, assignedToId := 3, baseId := 1, purpose := "patrol", notes := none }

/-- Witness for C8 at a concrete database where the assignment succeeds. -/
theorem c8_createAssignment_spec_witness :
    c8db.findAsset 10 = some c2asset ∧
    createAssignment c8db adminU c8req =
      (Except.ok 200, (createAssignment c8db adminU c8req).2) ∧
    c2asset.status = AssetStatus.AVAILABLE ∧ c8db.openAssignmentsOf 10 = [] :=
  ⟨rfl, rfl,
    ((c8_createAssignment_spec c8db adminU c8req c2asset rfl).1 200 _ rfl).1,
    ((c8_createAssignment_spec c8db adminU c8req c2asset rfl).1 200 _ rfl).2.1⟩

/-! ## C7 — return assignment -/

/-- C7: return is legal only when the targeted assignment is open — and then,
under the at-most-one-open invariant of the assignments table, exactly one
open assignment exists for the asset; on success `returnedAt` is stamped and
the asset status becomes AVAILABLE for GOOD, MAINTENANCE for
DAMAGED/NEEDS_MAINTENANCE, DECOMMISSIONED for DECOMMISSIONED; returning an
already-returned assignment fails with a ConflictError and changes nothing. -/
theorem c7_returnAssignment_spec (db : DB) (user : User) (x : Nat) (req : ReturnReq)
    (now : Nat) (a : Assignment)
    (hnd : (db.assignments.map Assignment.id).Nodup)
    (hone : ∀ y ∈ db.assignments, ∀ z ∈ db.assignments,
       y.assetId = z.assetId → y.returnedAt = none → z.returnedAt = none → y = z)
    (hfind : db.assignments.find? (assignmentScope user x) = some a) :
    (a.returnedAt = none →
       (db.openAssignmentsOf a.assetId).length = 1 ∧
       (returnAssignment db user x req now).1 = Except.ok x ∧
       ({ a with returnedAt := some now, notes := returnNotesUpd a req.notes } : Assignment)
           ∈ (returnAssignment db user x req now).2.assignments ∧
       (∀ asset0, db.findAsset a.assetId = some asset0 →
          (returnAssignment db user x req now).2.findAsset a.assetId =
            some { asset0 with status := returnConditionStatus req.condition }) ∧
       (req.condition = some "GOOD" →
          returnConditionStatus req.condition = AssetStatus.AVAILABLE) ∧
       ((req.condition = some "DAMAGED" ∨ req.condition = some "NEEDS_MAINTENANCE") →
          returnConditionStatus req.condition = AssetStatus.MAINTENANCE) ∧
       (req.condition = some "DECOMMISSIONED" →
          returnConditionStatus req.condition = AssetStatus.DECOMMISSIONED)) ∧
    (a.returnedAt ≠ none →
       returnAssignment db user x req now =
         (Except.error (ApiError.conflict "Asset has already been returned"), db)) := by
  have haid : a.id = x := by
    have := List.find?_some hfind
    unfold assignmentScope at this
    rcases Bool.and_eq_true_iff.mp this with ⟨h1, -⟩
    exact of_decide_eq_true h1
  have hamem : a ∈ db.assignments := List.mem_of_find?_eq_some hfind
  constructor
  · intro hopen
    have hret : returnAssignment db user x req now =
        (Except.ok x,
          { db with
            assignments := db.assignments.map fun y =>
              if y.id = x then
                { y with returnedAt := some now, notes := returnNotesUpd a req.notes }
              else y,
            assets := db.assets.map
              (setStatusRow a.assetId (returnConditionStatus req.condition)) }) := by
      unfold returnAssignment
      rw [hfind]
      dsimp only
      rw [if_neg (by rw [hopen]; simp)]
    refine ⟨?_, ?_, ?_, ?_, ?_, ?_, ?_⟩
    · have hsingle : db.openAssignmentsOf a.assetId = [a] := by
        unfold DB.openAssignmentsOf
        refine filter_eq_singleton_of_unique (List.Nodup.of_map _ hnd) hamem
          (decide_eq_true ⟨rfl, hopen⟩) ?_
        intro y hy hpy
        have hp := of_decide_eq_true hpy
        exact hone y hy a hamem hp.1 hp.2 hopen
      rw [hsingle]
      rfl
    · rw [hret]
    · rw [hret]
      refine List.mem_map.mpr ⟨a, hamem, ?_⟩
      rw [if_pos haid]
    · intro asset0 hfa
      rw [hret]
      show (db.assets.map _).find? _ = _
      unfold DB.findAsset at hfa
      have hid0 : asset0.id = a.assetId := by simpa using List.find?_some hfa
      rw [find?_key_map Asset.id _ (setStatusRow_id _ _) db.assets a.assetId]
      rw [hfa]
      show some (setStatusRow a.assetId (returnConditionStatus req.condition) asset0) = _
      unfold setStatusRow
      rw [if_pos hid0]
    · intro hc
      unfold returnConditionStatus
      rw [hc]
      rfl
    · intro hc
      unfold returnConditionStatus
      rcases hc with hc | hc <;> rw [hc] <;> rfl
    · intro hc
      unfold returnConditionStatus
      rw [hc]
      rfl
  · intro hret
    unfold returnAssignment
    rw [hfind]
    dsimp only
    rw [if_pos (Option.isSome_iff_ne_none.mpr hret)]

/-- The assigned asset 10 (status ASSIGNED at base 1). -/
def c7asset : Asset :=
  { id := 10, serialNumber := "SN-10", name := "Rifle", description := none,
    equipmentType := "WEAPON", status := AssetStatus.ASSIGNED, baseId := 1 }

/-- The single open assignment of asset 10. -/
def c7assignment : Assignment :=
  { id := 21, assetId := 10, assignedToId := 3, baseId := 1, purpose := "patrol",
    notes := none, returnedAt := none, createdById := 1 }

/-- A database with one open assignment of asset 10. -/
def c7db : DB :=
  { bases := [baseAlpha], users := [adminU, c8soldier], assets := [c7asset],
    assignments := [c7assignment], transfers := [], transferItems := [],
    expenditures := [], nextId := 300 }

/-- A return request with condition GOOD. -/
def c7req : ReturnReq := { notes := none, condition := some "GOOD" }

/-- Witness for C7 at a concrete database where the return succeeds. -/
theorem c7_returnAssignment_spec_witness :
    c7db.assignments.find? (assignmentScope adminU 21) = some c7assignment ∧
    c7assignment.returnedAt = none ∧
    (c7db.openAssignmentsOf 10).length = 1 ∧
    (returnAssignment c7db adminU 21 c7req 50).1 = Except.ok 21 :=
  ⟨rfl, rfl,
    ((c7_returnAssignment_spec c7db adminU 21 c7req 50 c7assignment (by decide)
        (by decide) rfl).1 rfl).1,
    ((c7_returnAssignment_spec c7db adminU 21 c7req 50 c7assignment (by decide)
        (by decide) rfl).1 rfl).2.1⟩

/-! ## C5 — cancel transfer -/

/-- C5: cancel is legal only from PENDING or APPROVED; on success the transfer
becomes CANCELLED and every member asset is set to AVAILABLE with its base
field and every other field untouched; non-member assets and all other tables
are untouched. -/
theorem c5_cancelTransfer_spec (db : DB) (user : User) (x : Nat)
    (reason : Option String) (t : Transfer) (hfind : db.findTransfer x = some t) :
    ((t.status ≠ TransferStatus.PENDING ∧ t.status ≠ TransferStatus.APPROVED) →
       cancelTransfer db user x reason =
         (Except.error
           (ApiError.conflict "Transfer cannot be cancelled in current status"), db)) ∧
    (∀ (y : Nat) (db1 : DB), cancelTransfer db user x reason = (Except.ok y, db1) →
       (t.status = TransferStatus.PENDING ∨ t.status = TransferStatus.APPROVED) ∧
       (db1.findTransfer x).map Transfer.status = some TransferStatus.CANCELLED ∧
       db1.assets = db.assets.map (fun a =>
         if a.id ∈ (db.itemsOfTransfer x).map TransferItem.assetId then
           { a with status := AssetStatus.AVAILABLE } else a) ∧
       db1.assignments = db.assignments ∧
       db1.transferItems = db.transferItems ∧
       db1.expenditures = db.expenditures ∧
       db1.bases = db.bases ∧
       db1.users = db.users) := by
  have htid : t.id = x := by
    have hf := hfind
    unfold DB.findTransfer at hf
    simpa using List.find?_some hf
  constructor
  · intro hst
    unfold cancelTransfer
    rw [hfind]
    dsimp only
    rw [if_pos hst]
  · intro y db1 h
    unfold cancelTransfer at h
    rw [hfind] at h
    dsimp only at h
    by_cases hst : t.status ≠ TransferStatus.PENDING ∧ t.status ≠ TransferStatus.APPROVED
    · rw [if_pos hst] at h
      simp at h
    · rw [if_neg hst] at h
      by_cases hauth : user.role = Role.BASE_COMMANDER ∧ user.baseId ≠ some t.fromBaseId
      · rw [if_pos hauth] at h
        simp at h
      · rw [if_neg hauth] at h
        rw [Prod.mk.injEq] at h
        have hdb1 : db1 = cancelLoop (db.itemsOfTransfer x)
            { db with transfers := db.transfers.map fun t2 =>
                if t2.id = x then
                  { t2 with status := TransferStatus.CANCELLED, notes := cancelNotesUpd t reason }
                else t2 } := h.2.symm
        have hframe := cancelLoop_frame (db.itemsOfTransfer x)
          { db with transfers := db.transfers.map fun t2 =>
              if t2.id = x then
                { t2 with status := TransferStatus.CANCELLED, notes := cancelNotesUpd t reason }
              else t2 }
        refine ⟨?_, ?_, ?_, ?_, ?_, ?_, ?_, ?_⟩
        · rcases not_and_or.mp hst with hP | hA
          · exact Or.inl (not_not.mp hP)
          · exact Or.inr (not_not.mp hA)
        · show (db1.transfers.find? fun t2 => decide (t2.id = x)).map Transfer.status = _
          rw [hdb1, hframe.1]
          show ((db.transfers.map _).find? fun t2 => decide (t2.id = x)).map
            Transfer.status = _
          rw [find?_key_map Transfer.id _
            (fun t2 => by split <;> rfl) db.transfers x]
          have hf := hfind
          unfold DB.findTransfer at hf
          rw [hf]
          show some (Transfer.status (if t.id = x then _ else t)) = _
          rw [if_pos htid]
        · rw [hdb1, cancelLoop_assets]
        · rw [hdb1, hframe.2.1]
        · rw [hdb1, hframe.2.2.2.1]
        · rw [hdb1, hframe.2.2.1]
        · rw [hdb1, hframe.2.2.2.2.1]
        · rw [hdb1, hframe.2.2.2.2.2.1]

/-- A PENDING transfer of asset 10 from base 1 to base 2. -/
def c5transfer : Transfer :=
  { id := 40, transferCode := "TRF-C5", fromBaseId := 1, toBaseId := 2,
    status := TransferStatus.PENDING, reason := none, notes := none,
    createdById := 1, approvedById := none, approvedAt := none, completedAt := none }

/-- The single item of the transfer 40. -/
def c5item : TransferItem :=
  { transferId := 40, assetId := 10, quantity := 1, notes := none }

/-- The in-transit asset 10 of transfer 40. -/
def c5asset : Asset :=
  { id := 10, serialNumber := "SN-10", name := "Rifle", description := none,
    equipmentType := "WEAPON", status := AssetStatus.IN_TRANSIT, baseId := 1 }

/-- A database with the pending transfer 40 holding asset 10. -/
def c5db : DB :=
  { bases := [baseAlpha, baseBravo], users := [adminU], assets := [c5asset],
    assignments := [], transfers := [c5transfer], transferItems := [c5item],
    expenditures := [], nextId := 500 }

/-- Witness for C5 at a concrete pending transfer. -/
theorem c5_cancelTransfer_spec_witness :
    c5db.findTransfer 40 = some c5transfer ∧
    cancelTransfer c5db adminU 40 none =
      (Except.ok 40, (cancelTransfer c5db adminU 40 none).2) ∧
    ((cancelTransfer c5db adminU 40 none).2.findTransfer 40).map Transfer.status =
      some TransferStatus.CANCELLED :=
  ⟨rfl, rfl,
    ((c5_cancelTransfer_spec c5db adminU 40 none c5transfer rfl).2 40 _ rfl).2.1⟩

/-! ## C6 — expenditure force-closes assignments -/

/-- C6: a successful expenditure stamps the asset EXPENDED and, within the
same atomic operation, closes every open assignment of the asset with
`returnedAt := now` and the auto-generated return note; afterwards no
assignment of the asset is open. -/
theorem c6_expenditure_forces_return (db : DB) (user : User) (req : ExpenditureReq)
    (now : Nat) (x : Nat) (db1 : DB)
    (hndAg : (db.assignments.map Assignment.id).Nodup)
    (hopen : db.openAssignmentsOf req.assetId ≠ [])
    (hok : createExpenditure db user req now = (Except.ok x, db1)) :
    ((db1.findAsset req.assetId).map Asset.status = some AssetStatus.EXPENDED) ∧
    (∀ y ∈ db1.assignments, y.assetId = req.assetId → y.returnedAt.isSome) ∧
    (∀ o ∈ db.openAssignmentsOf req.assetId,
       ({ o with returnedAt := some now, notes := expendAutoNotes o } : Assignment)
         ∈ db1.assignments) := by
  unfold createExpenditure at hok
  cases hfa : db.findAsset req.assetId with
  | none =>
    rw [hfa] at hok
    simp at hok
  | some asset =>
    rw [hfa] at hok
    dsimp only at hok
    by_cases hb : asset.baseId = cmdTargetBase user req.baseId
    · rw [if_neg (fun hh => hh hb)] at hok
      by_cases hst : asset.status = AssetStatus.EXPENDED
      · rw [if_pos hst] at hok
        simp at hok
      · rw [if_neg hst] at hok
        rw [Prod.mk.injEq] at hok
        have hdb1 : db1 = expendLoop now (db.openAssignmentsOf req.assetId)
            { db with
              expenditures := db.expenditures ++
                [{ id := db.nextId, assetId := req.assetId,
                   baseId := cmdTargetBase user req.baseId,
                   quantity := req.quantity, reason := req.reason,
                   description := req.description,
                   expendedAt := req.expendedAt.getD now, createdById := user.id }],
              assets := db.assets.map (setStatusRow req.assetId AssetStatus.EXPENDED),
              nextId := db.nextId + 1 } := hok.2.symm
        have hframe := expendLoop_frame now (db.openAssignmentsOf req.assetId)
          { db with
            expenditures := db.expenditures ++
              [{ id := db.nextId, assetId := req.assetId,
                 baseId := cmdTargetBase user req.baseId,
                 quantity := req.quantity, reason := req.reason,
                 description := req.description,
                 expendedAt := req.expendedAt.getD now, createdById := user.id }],
            assets := db.assets.map (setStatusRow req.assetId AssetStatus.EXPENDED),
            nextId := db.nextId + 1 }
        have hassign := expendLoop_assignments now (db.openAssignmentsOf req.assetId)
          { db with
            expenditures := db.expenditures ++
              [{ id := db.nextId, assetId := req.assetId,
                 baseId := cmdTargetBase user req.baseId,
                 quantity := req.quantity, reason := req.reason,
                 description := req.description,
                 expendedAt := req.expendedAt.getD now, createdById := user.id }],
            assets := db.assets.map (setStatusRow req.assetId AssetStatus.EXPENDED),
            nextId := db.nextId + 1 }
        have hopenfilter : ∀ o ∈ db.openAssignmentsOf req.assetId,
            o ∈ db.assignments ∧ o.assetId = req.assetId ∧ o.returnedAt = none := by
          intro o ho
          unfold DB.openAssignmentsOf at ho
          have hmem := List.mem_of_mem_filter ho
          have hp : o.assetId = req.assetId ∧ o.returnedAt = none := by
            simpa using List.of_mem_filter ho
          exact ⟨hmem, hp.1, hp.2⟩
        refine ⟨?_, ?_, ?_⟩
        · rw [hdb1]
          show ((expendLoop _ _ _).assets.find? fun a => decide (a.id = req.assetId)).map
            Asset.status = _
          rw [hframe.1]
          show ((db.assets.map _).find? fun a => decide (a.id = req.assetId)).map
            Asset.status = _
          rw [find?_key_map Asset.id _ (setStatusRow_id _ _) db.assets req.assetId]
          unfold DB.findAsset at hfa
          rw [hfa]
          have hid0 : asset.id = req.assetId := by simpa using List.find?_some hfa
          show some (Asset.status (setStatusRow req.assetId AssetStatus.EXPENDED asset)) = _
          unfold setStatusRow
          rw [if_pos hid0]
        · intro y hy hyid
          rw [hdb1, hassign] at hy
          rcases List.mem_map.mp hy with ⟨z, hz, rfl⟩
          unfold expendUpd
          cases hfz : (db.openAssignmentsOf req.assetId).reverse.find?
              (fun o => decide (o.id = z.id)) with
          | some o2 => simp
          | none =>
            have hznone : z.returnedAt ≠ none := by
              intro hzn
              have hzid : z.assetId = req.assetId := by
                unfold expendUpd at hyid
                rw [hfz] at hyid
                exact hyid
              have hzopen : z ∈ db.openAssignmentsOf req.assetId := by
                unfold DB.openAssignmentsOf
                exact List.mem_filter.mpr ⟨hz, decide_eq_true ⟨hzid, hzn⟩⟩
              have := List.find?_eq_none.mp hfz z (List.mem_reverse.mpr hzopen)
              simp at this
            simp [Option.isSome_iff_ne_none, hznone]
        · intro o ho
          rw [hdb1, hassign]
          have hndopen : ((db.openAssignmentsOf req.assetId).reverse.map
              Assignment.id).Nodup := by
            rw [List.map_reverse, List.nodup_reverse]
            exact hndAg.sublist ((List.filter_sublist _).map Assignment.id)
          have hfo := find?_key_of_mem Assignment.id hndopen (List.mem_reverse.mpr ho)
          refine List.mem_map.mpr ⟨o, (hopenfilter o ho).1, ?_⟩
          unfold expendUpd
          rw [hfo]
    · rw [if_pos hb] at hok
      simp at hok

/-- The assigned asset 10 to be expended. -/
def c6asset : Asset :=
  { id := 10, serialNumber := "SN-10", name := "Rifle", description := none,
    equipmentType := "WEAPON", status := AssetStatus.ASSIGNED, baseId := 1 }

/-- The open assignment force-closed by the expenditure. -/
def c6assignment : Assignment :=
  { id := 21, assetId := 10, assignedToId := 3, baseId := 1, purpose := "patrol",
    notes := none, returnedAt := none, createdById := 1 }

/-- A database with asset 10 assigned and open. -/
def c6db : DB :=
  { bases := [baseAlpha], users := [adminU, c8soldier], assets := [c6asset],
    assignments := [c6assignment], transfers := [], transferItems := [],
    expenditures := [], nextId := 400 }

/-- The expenditure request for asset 10 at base 1. -/
def c6req : ExpenditureReq :=
  { assetId := 10, baseId := 1, quantity := 1, reason := "combat loss",
    description := none, expendedAt := none }

/-- Witness for C6 at a concrete expended-while-assigned run. -/
theorem c6_expenditure_forces_return_witness :
    (c6db.assignments.map Assignment.id).Nodup ∧
    c6db.openAssignmentsOf 10 ≠ [] ∧
    createExpenditure c6db adminU c6req 60 =
      (Except.ok 400, (createExpenditure c6db adminU c6req 60).2) ∧
    ((createExpenditure c6db adminU c6req 60).2.findAsset 10).map Asset.status =
      some AssetStatus.EXPENDED :=
  ⟨by decide, by decide, rfl,
    (c6_expenditure_forces_return c6db adminU c6req 60 400 _ (by decide) (by decide)
      rfl).1⟩

/-! ## C3 — create transfer -/

/-- C3: create transfer succeeds only if the source differs from the
destination, both bases exist, and every requested asset is AVAILABLE at the
source base; on success it appends exactly one PENDING transfer row, one
TransferItem per requested asset, and sets every member asset IN_TRANSIT,
touching nothing else; on any failure the database is unchanged. -/
theorem c3_createTransfer_spec (db : DB) (user : User) (req : TransferReq)
    (code : String) (hwf : (db.assets.map Asset.id).Nodup) :
    (∀ (x : Nat) (db1 : DB), createTransfer db user req code = (Except.ok x, db1) →
       req.fromBaseId ≠ req.toBaseId ∧
       (db.findBase req.fromBaseId).isSome ∧ (db.findBase req.toBaseId).isSome ∧
       (∀ y ∈ transferAssetIds req, ∃ a ∈ db.assets,
          a.id = y ∧ a.status = AssetStatus.AVAILABLE ∧ a.baseId = req.fromBaseId) ∧
       x = db.nextId ∧
       db1.transfers = db.transfers ++
         [{ id := db.nextId, transferCode := code, fromBaseId := req.fromBaseId,
            toBaseId := req.toBaseId, status := TransferStatus.PENDING,
            reason := req.reason, notes := req.notes, createdById := user.id,
            approvedById := none, approvedAt := none, completedAt := none }] ∧
       db1.transferItems = db.transferItems ++ req.assets.map (fun r =>
         { transferId := db.nextId, assetId := r.assetId,
           quantity := r.quantity.getD 1, notes := r.notes }) ∧
       db1.assets = db.assets.map (fun a =>
         if a.id ∈ transferAssetIds req then
           { a with status := AssetStatus.IN_TRANSIT } else a) ∧
       (∀ y ∈ transferAssetIds req,
          (db1.findAsset y).map Asset.status = some AssetStatus.IN_TRANSIT) ∧
       db1.assignments = db.assignments ∧ db1.expenditures = db.expenditures ∧
       db1.bases = db.bases ∧ db1.users = db.users) ∧
    (∀ e, (createTransfer db user req code).1 = Except.error e →
       (createTransfer db user req code).2 = db) := by
  constructor
  · intro x db1 h
    rw [createTransfer_ok_iff] at h
    obtain ⟨hv, hx, hdb1⟩ := h
    obtain ⟨hne, -, hfrom, hto, hlen⟩ := (createTransferValidate_eq_none db user req).mp hv
    have hcover := available_covers db req hwf hlen
    have hT1trans : db1.transfers = db.transfers ++
        [{ id := db.nextId, transferCode := code, fromBaseId := req.fromBaseId,
           toBaseId := req.toBaseId, status := TransferStatus.PENDING,
           reason := req.reason, notes := req.notes, createdById := user.id,
           approvedById := none, approvedAt := none, completedAt := none }] := by
      rw [hdb1]
      exact (commitLoop_frame _ _ _).1
    have hT1items : db1.transferItems = db.transferItems ++ req.assets.map (fun r =>
        { transferId := db.nextId, assetId := r.assetId,
          quantity := r.quantity.getD 1, notes := r.notes }) := by
      rw [hdb1]
      exact commitLoop_transferItems _ _ _
    have hT1assets : db1.assets = db.assets.map (fun a =>
        if a.id ∈ transferAssetIds req then
          { a with status := AssetStatus.IN_TRANSIT } else a) := by
      rw [hdb1]
      exact commitLoop_assets _ _ _
    refine ⟨hne, hfrom, hto, hcover, hx, hT1trans, hT1items, hT1assets, ?_, ?_, ?_, ?_, ?_⟩
    · intro y hy
      rcases hcover y hy with ⟨a, hamem, haid, -, -⟩
      unfold DB.findAsset
      rw [hT1assets]
      rw [find?_key_map Asset.id _ (fun a2 => by split <;> rfl) db.assets y]
      have hfa := find?_key_of_mem Asset.id hwf hamem
      rw [haid] at hfa
      rw [hfa]
      show some (Asset.status (if a.id ∈ transferAssetIds req then _ else a)) = _
      rw [if_pos (haid ▸ hy)]
    · rw [hdb1]
      exact (commitLoop_frame db.nextId req.assets _).2.1
    · rw [hdb1]
      exact (commitLoop_frame db.nextId req.assets _).2.2.1
    · rw [hdb1]
      exact (commitLoop_frame db.nextId req.assets _).2.2.2.1
    · rw [hdb1]
      exact (commitLoop_frame db.nextId req.assets _).2.2.2.2.1
  · intro e he
    exact createTransfer_error_frame db user req code e he

/-- The available asset 10 at base 1 for the concrete transfer. -/
def c3asset : Asset :=
  { id := 10, serialNumber := "SN-10", name := "Rifle", description := none,
    equipmentType := "WEAPON", status := AssetStatus.AVAILABLE, baseId := 1 }

/-- A database with two bases and the available asset 10. -/
def c3db : DB :=
  { bases := [baseAlpha, baseBravo], users := [adminU], assets := [c3asset],
    assignments := [], transfers := [], transferItems := [], expenditures := [],
    nextId := 600 }

/-- A transfer request moving asset 10 from base 1 to base 2. -/
def c3req : TransferReq :=
  { fromBaseId := 1, toBaseId := 2, reason := some "redeploy", notes := none,
    assets := [{ assetId := 10, quantity := none, notes := none }] }

/-- Witness for C3 at a concrete successful transfer creation. -/
theorem c3_createTransfer_spec_witness :
    (c3db.assets.map Asset.id).Nodup ∧
    createTransfer c3db adminU c3req "TRF-C3" =
      (Except.ok 600, (createTransfer c3db adminU c3req "TRF-C3").2) ∧
    ((createTransfer c3db adminU c3req "TRF-C3").2.findAsset 10).map Asset.status =
      some AssetStatus.IN_TRANSIT :=
  ⟨by decide, rfl,
    ((c3_createTransfer_spec c3db adminU c3req "TRF-C3" (by decide)).1 600 _
      rfl).2.2.2.2.2.2.2.2.1 10 (by decide)⟩

/-! ## C4 — approve + complete round trip -/

/-- The transfer row appended by `createTransferCommit` (its `transfer` let
binding), named for reuse in proofs. -/
def newTransferRow (db : DB) (user : User) (req : TransferReq) (code : String) :
    Transfer :=
  { id := db.nextId, transferCode := code, fromBaseId := req.fromBaseId,
    toBaseId := req.toBaseId, status := TransferStatus.PENDING,
    reason := req.reason, notes := req.notes, createdById := user.id,
    approvedById := none, approvedAt := none, completedAt := none }

/-- A successful `approveTransfer` run, phrased by the found PENDING row. -/
theorem approveTransfer_ok (db : DB) (u : User) (x : Nat) (notes : Option String)
    (now : Nat) (t : Transfer) (hfind : db.findTransfer x = some t)
    (hP : t.status = TransferStatus.PENDING)
    (hauth : ¬(u.role = Role.BASE_COMMANDER ∧ u.baseId ≠ some t.toBaseId)) :
    approveTransfer db u x notes now =
      (Except.ok x,
        { db with transfers := db.transfers.map fun t2 =>
            if t2.id = x then
              { t2 with status := TransferStatus.APPROVED, approvedById := some u.id, approvedAt := some now, notes := approveNotesUpd notes t.notes }
            else t2 }) := by
  unfold approveTransfer
  rw [hfind]
  dsimp only
  rw [if_neg (fun hh => hh hP), if_neg hauth]

/-- A successful `completeTransfer` run, phrased by the found APPROVED row. -/
theorem completeTransfer_ok (db : DB) (u : User) (x : Nat) (now : Nat)
    (t : Transfer) (hfind : db.findTransfer x = some t)
    (hA : t.status = TransferStatus.APPROVED)
    (hauth : ¬(u.role = Role.BASE_COMMANDER ∧ u.baseId ≠ some t.toBaseId)) :
    completeTransfer db u x now =
      (Except.ok x,
        completeLoop t.toBaseId (db.itemsOfTransfer x)
          { db with transfers := db.transfers.map fun t2 =>
              if t2.id = x then
                { t2 with status := TransferStatus.COMPLETED, completedAt := some now }
              else t2 }) := by
  unfold completeTransfer
  rw [hfind]
  dsimp only
  rw [if_neg (fun hh => hh hA), if_neg hauth]

/-- C4: after a successful create, approving and then completing the transfer
succeeds, moves every member asset to the destination base with status
AVAILABLE, and marks the transfer COMPLETED with a completion timestamp;
completing a transfer that is not APPROVED (or does not exist) fails without
changing any row. -/
theorem c4_transfer_roundtrip (db : DB) (creator approver completer : User)
    (req : TransferReq) (code : String) (anotes : Option String)
    (now₁ now₂ x : Nat) (db1 : DB)
    (hwf : (db.assets.map Asset.id).Nodup)
    (hfreshT : ∀ t ∈ db.transfers, t.id ≠ db.nextId)
    (hfreshI : ∀ it ∈ db.transferItems, it.transferId ≠ db.nextId)
    (hauthA : ¬(approver.role = Role.BASE_COMMANDER ∧
       approver.baseId ≠ some req.toBaseId))
    (hauthC : ¬(completer.role = Role.BASE_COMMANDER ∧
       completer.baseId ≠ some req.toBaseId))
    (hcreate : createTransfer db creator req code = (Except.ok x, db1)) :
    ((approveTransfer db1 approver x anotes now₁).1 = Except.ok x ∧
     (completeTransfer (approveTransfer db1 approver x anotes now₁).2
        completer x now₂).1 = Except.ok x ∧
     (∀ y ∈ transferAssetIds req, ∃ a,
        (completeTransfer (approveTransfer db1 approver x anotes now₁).2
           completer x now₂).2.findAsset y = some a ∧
        a.baseId = req.toBaseId ∧ a.status = AssetStatus.AVAILABLE) ∧
     (∃ t, (completeTransfer (approveTransfer db1 approver x anotes now₁).2
        completer x now₂).2.findTransfer x = some t ∧
        t.status = TransferStatus.COMPLETED ∧ t.completedAt = some now₂)) ∧
    (∀ (db2 : DB) (u : User) (z now3 : Nat) (t : Transfer),
       db2.findTransfer z = some t → t.status ≠ TransferStatus.APPROVED →
       completeTransfer db2 u z now3 =
         (Except.error
           (ApiError.conflict "Transfer must be approved before completion"), db2)) ∧
    (∀ (db2 : DB) (u : User) (z now3 : Nat), db2.findTransfer z = none →
       completeTransfer db2 u z now3 =
         (Except.error (ApiError.notFound "Transfer not found"), db2)) := by
  refine ⟨?_, ?_, ?_⟩
  · rw [createTransfer_ok_iff] at hcreate
    obtain ⟨hv, hx, hdb1⟩ := hcreate
    subst hx
    obtain ⟨-, -, -, -, hlen⟩ := (createTransferValidate_eq_none db creator req).mp hv
    have hcover := available_covers db req hwf hlen
    have hT1trans : db1.transfers =
        db.transfers ++ [newTransferRow db creator req code] := by
      rw [hdb1]
      exact (commitLoop_frame _ _ _).1
    have hT1items : db1.transferItems = db.transferItems ++ req.assets.map (fun r =>
        { transferId := db.nextId, assetId := r.assetId,
          quantity := r.quantity.getD 1, notes := r.notes }) := by
      rw [hdb1]
      exact commitLoop_transferItems _ _ _
    have hT1assets : db1.assets = db.assets.map (fun a =>
        if a.id ∈ transferAssetIds req then
          { a with status := AssetStatus.IN_TRANSIT } else a) := by
      rw [hdb1]
      exact commitLoop_assets _ _ _
    have hfT1 : db1.findTransfer db.nextId =
        some (newTransferRow db creator req code) := by
      unfold DB.findTransfer
      rw [hT1trans]
      rw [find?_append_none _ (List.find?_eq_none.mpr
        (fun t2 ht2 => by simpa using hfreshT t2 ht2))]
      rw [List.find?_cons_of_pos _ (by simp [newTransferRow])]
    have happrove := approveTransfer_ok db1 approver db.nextId anotes now₁
      (newTransferRow db creator req code) hfT1 rfl hauthA
    have hA2trans : (approveTransfer db1 approver db.nextId anotes now₁).2.transfers =
        db1.transfers.map fun t2 =>
          if t2.id = db.nextId then
            { t2 with status := TransferStatus.APPROVED, approvedById := some approver.id, approvedAt := some now₁, notes := approveNotesUpd anotes (newTransferRow db creator req code).notes }
          else t2 := by
      rw [happrove]
    have hA2items : (approveTransfer db1 approver db.nextId anotes now₁).2.transferItems =
        db1.transferItems := by
      rw [happrove]
    have hA2assets : (approveTransfer db1 approver db.nextId anotes now₁).2.assets =
        db1.assets := by
      rw [happrove]
    have hfT2 : (approveTransfer db1 approver db.nextId anotes now₁).2.findTransfer
        db.nextId =
        some { newTransferRow db creator req code with
               status := TransferStatus.APPROVED, approvedById := some approver.id,
               approvedAt := some now₁,
               notes := approveNotesUpd anotes (newTransferRow db creator req code).notes } := by
      unfold DB.findTransfer
      rw [hA2trans]
      rw [find?_key_map Transfer.id _ (fun t2 => by split <;> rfl) db1.transfers db.nextId]
      unfold DB.findTransfer at hfT1
      rw [hfT1]
      show some (if (newTransferRow db creator req code).id = db.nextId then _ else _) = _
      rw [if_pos (show (newTransferRow db creator req code).id = db.nextId from rfl)]
    have hcomplete := completeTransfer_ok
      (approveTransfer db1 approver db.nextId anotes now₁).2 completer db.nextId now₂
      _ hfT2 rfl hauthC
    have hitems : (approveTransfer db1 approver db.nextId anotes now₁).2.itemsOfTransfer
        db.nextId =
        req.assets.map (fun r =>
          { transferId := db.nextId, assetId := r.assetId,
            quantity := r.quantity.getD 1, notes := r.notes }) := by
      unfold DB.itemsOfTransfer
      rw [hA2items, hT1items, List.filter_append]
      rw [List.filter_eq_nil_iff.mpr (fun it hit => by simpa using hfreshI it hit)]
      rw [List.filter_eq_self.mpr ?hall]
      · exact List.nil_append _
      case hall =>
        intro it hit
        rcases List.mem_map.mp hit with ⟨r, -, rfl⟩
        exact decide_eq_true rfl
    refine ⟨by rw [happrove], by rw [hcomplete], ?_, ?_⟩
    · intro y hy
      rcases hcover y hy with ⟨a, hamem, haid, -, -⟩
      refine ⟨{ a with baseId := req.toBaseId, status := AssetStatus.AVAILABLE },
        ?_, rfl, rfl⟩
      unfold DB.findAsset
      rw [hcomplete]
      dsimp only
      rw [completeLoop_assets]
      dsimp only
      rw [find?_key_map Asset.id _ (fun a2 => by split <;> rfl) _ y]
      rw [hA2assets, hT1assets]
      rw [find?_key_map Asset.id _ (fun a2 => by split <;> rfl) db.assets y]
      have hfa := find?_key_of_mem Asset.id hwf hamem
      rw [haid] at hfa
      rw [hfa]
      rw [hitems, List.map_map]
      rw [Option.map_some', Option.map_some']
      rw [if_pos (show a.id ∈ transferAssetIds req from haid ▸ hy)]
      have hmemb2 : (({ a with status := AssetStatus.IN_TRANSIT } : Asset)).id ∈
          List.map (TransferItem.assetId ∘ fun r =>
            ({ transferId := db.nextId, assetId := r.assetId, quantity := r.quantity.getD 1, notes := r.notes } : TransferItem)) req.assets := by
        show a.id ∈ req.assets.map fun r => r.assetId
        exact haid ▸ hy
      rw [if_pos hmemb2]
      rfl
    · refine ⟨{ { newTransferRow db creator req code with
                  status := TransferStatus.APPROVED, approvedById := some approver.id,
                  approvedAt := some now₁,
                  notes := approveNotesUpd anotes (newTransferRow db creator req code).notes } with
                status := TransferStatus.COMPLETED, completedAt := some now₂ },
        ?_, rfl, rfl⟩
      unfold DB.findTransfer
      rw [hcomplete]
      dsimp only
      rw [(completeLoop_frame _ _ _).1]
      dsimp only
      rw [find?_key_map Transfer.id _ (fun t2 => by split <;> rfl) _ db.nextId]
      unfold DB.findTransfer at hfT2
      rw [hfT2]
      show some (if (newTransferRow db creator req code).id = db.nextId then _ else _) = _
      rw [if_pos (show (newTransferRow db creator req code).id = db.nextId from rfl)]
  · intro db2 u z now3 t hf hns
    unfold completeTransfer
    rw [hf]
    dsimp only
    rw [if_pos hns]
  · intro db2 u z now3 hf
    unfold completeTransfer
    rw [hf]

/-- Witness for C4 at a concrete create/approve/complete run. -/
theorem c4_transfer_roundtrip_witness :
    ((c3db.assets.map Asset.id).Nodup ∧
      createTransfer c3db adminU c3req "TRF-C4" =
        (Except.ok 600, (createTransfer c3db adminU c3req "TRF-C4").2)) ∧
    (approveTransfer (createTransfer c3db adminU c3req "TRF-C4").2 adminU 600
       none 70).1 = Except.ok 600 ∧
    (completeTransfer (approveTransfer (createTransfer c3db adminU c3req "TRF-C4").2
       adminU 600 none 70).2 adminU 600 80).1 = Except.ok 600 :=
  ⟨⟨by decide, rfl⟩,
    ((c4_transfer_roundtrip c3db adminU adminU adminU c3req "TRF-C4" none 70 80 600
        (createTransfer c3db adminU c3req "TRF-C4").2 (by decide) (by decide)
        (by decide) (by decide) (by decide) rfl).1).1,
    ((c4_transfer_roundtrip c3db adminU adminU adminU c3req "TRF-C4" none 70 80 600
        (createTransfer c3db adminU c3req "TRF-C4").2 (by decide) (by decide)
        (by decide) (by decide) (by decide) rfl).1).2.1⟩

/-! ## C9 — concurrent create-transfer race -/

/-- The database read by both concurrent requests: asset 10 AVAILABLE at
base 1, no transfers yet. -/
def c9db : DB :=
  { bases := [baseAlpha, baseBravo], users := [adminU], assets := [c3asset],
    assignments := [], transfers := [], transferItems := [], expenditures := [],
    nextId := 700 }

/-- The request both concurrent callers submit: move asset 10 from base 1 to
base 2. -/
def c9req : TransferReq :=
  { fromBaseId := 1, toBaseId := 2, reason := some "redeploy", notes := none,
    assets := [{ assetId := 10, quantity := none, notes := none }] }

/-- The state after the first transaction commits. -/
def c9db1 : DB := (createTransferCommit c9db adminU c9req "TRF-R1").2

/-- The state after the second transaction also commits. -/
def c9db2 : DB := (createTransferCommit c9db1 adminU c9req "TRF-R2").2

/-- C9: the availability check of `createTransfer` runs BEFORE the Prisma
transaction, and the transaction performs only creates and unconditional
status updates, so it cannot fail once validation passed.  Interleaving two
requests as read/read/commit/commit — realizable because both validations
read the same initial state — makes BOTH succeed: asset 10 ends IN_TRANSIT as
a member of TWO non-terminal transfers, contradicting the claim that exactly
one request succeeds and the other fails with a ConflictError. -/
theorem c9_race_double_claims_asset :
    createTransferValidate c9db adminU c9req = none ∧
    createTransferValidate c9db1 adminU c9req =
      some (ApiError.conflict "Some assets are not available for transfer") ∧
    (c9db2.itemsForAsset 10).length = 2 ∧
    ((c9db2.findAsset 10).map Asset.status = some AssetStatus.IN_TRANSIT) ∧
    (c9db2.transfers.filter fun t => decide (t.status ≠ TransferStatus.COMPLETED ∧
      t.status ≠ TransferStatus.CANCELLED)).length = 2 :=
  ⟨rfl, rfl, rfl, rfl, rfl⟩

end MilitaryAsset
